import Mathlib

/-!
Verification of the jira-a2a ticket information-gathering pipeline.

This file gives a shallow embedding, in Lean 4, of the Go functions of the
repository `tuannvm/jira-a2a` that the specification's claims are about:

* the risk/priority normalizers and the JSON extractor of the
  InformationGatheringAgent (`internal/agents`, first historical variant),
* the heuristic analyzer `performBasicAnalysis` and the dispatcher
  `analyzeTicketInfo`,
* the message decoders `extractTaskData` (InformationGatheringAgent) and
  `ExtractTicketData` / `ExtractFromMap` (`internal/common/data.go`),
* the webhook normalizer `TransformJiraWebhook` (`internal/jira/webhook.go`),
* the HTTP webhook handler `HandleWebhook` (`internal/agents/jiraretrieval.go`),
* the comment synthesizer `formatJiraComment` (`internal/agents/jiraretrieval.go`),
* the task orchestrator `Process` of the InformationGatheringAgent.

Modelling conventions:

* Go strings are Lean `String`s; most computations are done on `List Char`.
* Go maps are association lists.  Go's map iteration order is unspecified;
  the embedding iterates in list order.  Every theorem below is insensitive
  to that order (counts, membership, singleton maps).
* `encoding/json` (an external library) is modelled by an executable JSON
  parser `goJsonParse` following the JSON grammar that `json.Valid` accepts,
  and by per-struct decoders following `json.Unmarshal`'s rules (top-level
  `null` is a no-op, unknown keys are ignored, a type mismatch is an error,
  duplicate keys overwrite).  Go's case-insensitive field-name fallback and
  its partial writes on type errors are not modelled; no claim depends on
  them.
* Functions that can return `error` return `GoResult`; a Go slice-bounds
  panic is the distinguished outcome `GoResult.panics`.
* `float64` confidence values are modelled as exact rationals; no claim
  mentions them.
-/

/-- Outcome of a fallible Go computation: a value, a returned `error`, or a
runtime panic. -/
inductive GoResult (α : Type) where
  | ok (a : α)
  | err (msg : String)
  | panics
  deriving DecidableEq, Repr

/-- ASCII lower-casing of one character, the fragment of `strings.ToLower`
exercised by this code base (all compared literals are ASCII). -/
def goLowerChar (c : Char) : Char :=
  if 'A' ≤ c ∧ c ≤ 'Z' then Char.ofNat (c.toNat + 32) else c

/-- `strings.ToLower`. -/
def goToLower (s : String) : String :=
  ⟨s.data.map goLowerChar⟩

/-- Does `sub` occur as a contiguous run inside `hay`? (list form) -/
def containsAux (sub : List Char) : List Char → Bool
  | [] => sub.isEmpty
  | c :: t => sub.isPrefixOf (c :: t) || containsAux sub t

/-- `strings.Contains`. -/
def goContains (s sub : String) : Bool :=
  containsAux sub.data s.data

/-- `strings.Fields`: split around runs of whitespace. -/
def goFieldsAux : List Char → List Char → List (List Char)
  | acc, [] => if acc.isEmpty then [] else [acc.reverse]
  | acc, c :: t =>
    if c.isWhitespace then
      (if acc.isEmpty then [] else [acc.reverse]) ++ goFieldsAux [] t
    else
      goFieldsAux (c :: acc) t

/-- `strings.Fields` on a string, returning the words. -/
def goFields (s : String) : List String :=
  (goFieldsAux [] s.data).map List.asString

/-- `strings.Split` by a single separator character (the code only splits on
`"-"` and `":"`). -/
def goSplitAux (sep : Char) : List Char → List Char → List (List Char)
  | acc, [] => [acc.reverse]
  | acc, c :: t =>
    if c = sep then acc.reverse :: goSplitAux sep [] t
    else goSplitAux sep (c :: acc) t

/-- `strings.Split s sep` for a one-character separator. -/
def goSplit (s : String) (sep : Char) : List String :=
  (goSplitAux sep [] s.data).map List.asString

/-- `strings.Index s sub` for a one-character needle: index of the first
occurrence, `none` standing for Go's `-1`. -/
def goIndexOfChar (s : List Char) (c : Char) : Option Nat :=
  s.findIdx? (· = c)

/-- `strings.LastIndex s sub` for a one-character needle. -/
def goLastIndexOfChar (s : List Char) (c : Char) : Option Nat :=
  match (s.reverse.findIdx? (· = c)) with
  | none => none
  | some j => some (s.length - 1 - j)

/-- `normalizeRiskLevel` (internal/agents, InformationGatheringAgent):
maps arbitrary-case risk tokens onto `high` / `medium` / `low`,
defaulting to `medium`. -/
def normalizeRiskLevel (level : String) : String :=
  let l := goToLower level
  if l = "high" ∨ l = "critical" ∨ l = "severe" ∨ l = "important" then "high"
  else if l = "medium" ∨ l = "moderate" ∨ l = "normal" then "medium"
  else if l = "low" ∨ l = "minor" ∨ l = "trivial" then "low"
  else "medium"

/-- `normalizePriority` (internal/agents, InformationGatheringAgent). -/
def normalizePriority (priority : String) : String :=
  let p := goToLower priority
  if p = "high" ∨ p = "critical" ∨ p = "urgent" ∨ p = "important" then "high"
  else if p = "medium" ∨ p = "normal" ∨ p = "moderate" then "medium"
  else if p = "low" ∨ p = "minor" ∨ p = "trivial" then "low"
  else "medium"

/-- JSON values as decoded by `encoding/json`.  Numbers keep their raw
literal text: Go decodes a number into an integer field via
`strconv.ParseInt` on the literal, so the literal itself is what matters. -/
inductive Json where
  | null
  | jbool (b : Bool)
  | jnum (raw : String)
  | jstr (s : String)
  | jarr (xs : List Json)
  | jobj (fields : List (String × Json))

/-- Whitespace accepted between JSON tokens. -/
def jsonWs (c : Char) : Bool :=
  c = ' ' ∨ c = '\t' ∨ c = '\n' ∨ c = '\r'

/-- Drop leading JSON whitespace. -/
def skipWs : List Char → List Char
  | [] => []
  | c :: t => if jsonWs c then skipWs t else c :: t

/-- Decode one escape character after a backslash inside a JSON string. -/
def jsonEscChar (c : Char) : Option Char :=
  if c = '"' then some '"'
  else if c = '\\' then some '\\'
  else if c = '/' then some '/'
  else if c = 'b' then some (Char.ofNat 8)
  else if c = 'f' then some (Char.ofNat 12)
  else if c = 'n' then some '\n'
  else if c = 'r' then some '\r'
  else if c = 't' then some '\t'
  else none

/-- Hexadecimal digit value. -/
def hexVal (c : Char) : Option Nat :=
  if '0' ≤ c ∧ c ≤ '9' then some (c.toNat - '0'.toNat)
  else if 'a' ≤ c ∧ c ≤ 'f' then some (c.toNat - 'a'.toNat + 10)
  else if 'A' ≤ c ∧ c ≤ 'F' then some (c.toNat - 'A'.toNat + 10)
  else none

/-- Parse the body of a JSON string after the opening quote; returns the
decoded characters and the input after the closing quote.  Surrogate-pair
combination is not modelled (no claim uses `\u` escapes). -/
def parseJsonStr : List Char → Option (List Char × List Char)
  | [] => none
  | c :: t =>
    if c = '"' then some ([], t)
    else if c = '\\' then
      match t with
      | [] => none
      | e :: t2 =>
        if e = 'u' then
          match t2 with
          | h1 :: h2 :: h3 :: h4 :: t3 =>
            match hexVal h1, hexVal h2, hexVal h3, hexVal h4 with
            | some a, some b, some c2, some d =>
              match parseJsonStr t3 with
              | some (rest, rem) =>
                some (Char.ofNat (((a * 16 + b) * 16 + c2) * 16 + d) :: rest, rem)
              | none => none
            | _, _, _, _ => none
          | _ => none
        else
          match jsonEscChar e with
          | none => none
          | some d =>
            match parseJsonStr t2 with
            | some (rest, rem) => some (d :: rest, rem)
            | none => none
    else if c.toNat < 32 then none
    else
      match parseJsonStr t with
      | some (rest, rem) => some (c :: rest, rem)
      | none => none

/-- Take the longest leading run of decimal digits. -/
def takeDigits : List Char → List Char × List Char
  | [] => ([], [])
  | c :: t =>
    if c.isDigit then
      let (ds, rem) := takeDigits t
      (c :: ds, rem)
    else ([], c :: t)

/-- Optional exponent part of a JSON number. -/
def parseJsonNumExp (acc : List Char) : List Char → Option (List Char × List Char)
  | [] => some (acc, [])
  | c :: t =>
    if c = 'e' ∨ c = 'E' then
      let (sgn, t2) : List Char × List Char := match t with
        | '+' :: r => (['+'], r)
        | '-' :: r => (['-'], r)
        | _ => ([], t)
      match takeDigits t2 with
      | ([], _) => none
      | (ds, rem) => some (acc ++ c :: (sgn ++ ds), rem)
    else some (acc, c :: t)

/-- Optional fraction, then optional exponent, of a JSON number. -/
def parseJsonNumFrac (acc : List Char) : List Char → Option (List Char × List Char)
  | '.' :: t =>
    (match takeDigits t with
     | ([], _) => none
     | (ds, rem) => parseJsonNumExp (acc ++ '.' :: ds) rem)
  | s => parseJsonNumExp acc s

/-- Parse a JSON number literal (RFC 8259 grammar, as `json.Valid` enforces
it: no leading zeros, digits required around `.`).  Returns the raw literal
and the remaining input. -/
def parseJsonNum (s : List Char) : Option (List Char × List Char) :=
  let (sign, s1) : List Char × List Char := match s with
    | '-' :: t => (['-'], t)
    | _ => ([], s)
  match s1 with
  | [] => none
  | c :: t =>
    if c = '0' then parseJsonNumFrac (sign ++ [c]) t
    else if c.isDigit then
      let (ds, rem) := takeDigits t
      parseJsonNumFrac (sign ++ c :: ds) rem
    else none

mutual

/-- Parse one JSON value.  The fuel argument only forces termination; it is
always supplied larger than the input length. -/
def parseJsonVal : Nat → List Char → Option (Json × List Char)
  | 0, _ => none
  | fuel + 1, s =>
    match skipWs s with
    | [] => none
    | c :: t =>
      if c = '"' then
        match parseJsonStr t with
        | some (cs, rem) => some (.jstr cs.asString, rem)
        | none => none
      else if c = '\x7b' then
        match skipWs t with
        | d :: t2 =>
          if d = '\x7d' then some (.jobj [], t2)
          else
            match parseJsonMembers fuel (skipWs t) with
            | some (fs, rem) => some (.jobj fs, rem)
            | none => none
        | [] => none
      else if c = '[' then
        match skipWs t with
        | d :: t2 =>
          if d = ']' then some (.jarr [], t2)
          else
            match parseJsonElems fuel (skipWs t) with
            | some (xs, rem) => some (.jarr xs, rem)
            | none => none
        | [] => none
      else if c = 't' then
        if ['r', 'u', 'e'].isPrefixOf t then some (.jbool true, t.drop 3) else none
      else if c = 'f' then
        if ['a', 'l', 's', 'e'].isPrefixOf t then some (.jbool false, t.drop 4) else none
      else if c = 'n' then
        if ['u', 'l', 'l'].isPrefixOf t then some (.null, t.drop 3) else none
      else
        match parseJsonNum (c :: t) with
        | some (raw, rem) => some (.jnum raw.asString, rem)
        | none => none

/-- Parse the comma-separated elements of a non-empty JSON array, including
the closing bracket. -/
def parseJsonElems : Nat → List Char → Option (List Json × List Char)
  | 0, _ => none
  | fuel + 1, s =>
    match parseJsonVal fuel s with
    | none => none
    | some (v, rem) =>
      match skipWs rem with
      | ',' :: rem2 =>
        (match parseJsonElems fuel rem2 with
         | some (xs, rem3) => some (v :: xs, rem3)
         | none => none)
      | ']' :: rem2 => some ([v], rem2)
      | _ => none

/-- Parse the members of a non-empty JSON object, including the closing
brace. -/
def parseJsonMembers : Nat → List Char → Option (List (String × Json) × List Char)
  | 0, _ => none
  | fuel + 1, s =>
    match skipWs s with
    | '"' :: t =>
      (match parseJsonStr t with
       | none => none
       | some (k, rem) =>
         match skipWs rem with
         | ':' :: rem2 =>
           (match parseJsonVal fuel rem2 with
            | none => none
            | some (v, rem3) =>
              match skipWs rem3 with
              | ',' :: rem4 =>
                (match parseJsonMembers fuel rem4 with
                 | some (fs, rem5) => some ((k.asString, v) :: fs, rem5)
                 | none => none)
              | '\x7d' :: rem4 => some ([(k.asString, v)], rem4)
              | _ => none)
         | _ => none)
    | _ => none

end

/-- `json.Unmarshal`'s surface view: parse a whole string as one JSON value,
allowing surrounding whitespace and rejecting trailing input. -/
def goJsonParse (s : String) : Option Json :=
  match parseJsonVal (s.length + 4) s.data with
  | some (v, rem) => if skipWs rem = [] then some v else none
  | none => none

/-- `json.Valid` (also what unmarshalling into `json.RawMessage` checks). -/
def goJsonValid (s : String) : Bool :=
  (goJsonParse s).isSome

/-- Go map assignment on an association list: overwrite in place if the key
exists, else append. -/
def goAssocPut {α : Type} (m : List (String × α)) (k : String) (v : α) : List (String × α) :=
  if m.any (·.1 = k) then m.map (fun p => if p.1 = k then (k, v) else p) else m ++ [(k, v)]

/-- Go map lookup on an association list with unique keys. -/
def goAssocGet {α : Type} (m : List (String × α)) (k : String) : Option α :=
  (m.find? (·.1 = k)).map (·.2)

/-- `json.Unmarshal` of an object into a Go map: later duplicate keys
overwrite earlier ones. -/
def collapseObj {α : Type} (fs : List (String × α)) : List (String × α) :=
  fs.foldl (fun m p => goAssocPut m p.1 p.2) []

/-- `extractJSON` (part_002 lines 528-551): take the substring from the
first `\x7b` to the last `\x7d` and validate it as JSON.  Error messages are
abbreviated.  When the last closing brace lies before the first opening
brace minus one, the Go slice expression `text[start:end+1]` panics. -/
def extractJSON (text : String) : GoResult String :=
  match goIndexOfChar text.data '\x7b' with
  | none => .err "no JSON found in response"
  | some start =>
    match goLastIndexOfChar text.data '\x7d' with
    | none => .err "no closing brace found in response"
    | some stop =>
      if stop + 1 < start then .panics
      else
        let jsonStr := ((text.data.drop start).take (stop + 1 - start)).asString
        if goJsonValid jsonStr then .ok jsonStr else .err "invalid JSON"

/-- Spec-side definition (for the refinement comparison of claim C4 only):
the first balanced `\x7b...\x7d` span of a string, by plain brace counting,
as the specification's words describe the extractor. -/
def specBalancedScan (depth : Nat) (acc : List Char) : List Char → Option (List Char)
  | [] => none
  | c :: t =>
    if c = '\x7b' then specBalancedScan (depth + 1) (c :: acc) t
    else if c = '\x7d' then
      if depth = 1 then some (c :: acc).reverse
      else specBalancedScan (depth - 1) (c :: acc) t
    else specBalancedScan depth (c :: acc) t

/-- Spec-side definition (claim C4): first balanced `\x7b...\x7d` span. -/
def specFirstBalancedSpan (text : String) : Option String :=
  match text.data.dropWhile (· ≠ '\x7b') with
  | [] => none
  | s => (specBalancedScan 0 [] s).map List.asString

/-- `models.TicketAvailableTask`, restricted to the fields the verified
functions read or write (`ticketId`, `summary`, `description`, `metadata`);
the remaining plain string fields of the rich variant are never consulted
by the claims' functions. -/
structure TicketAvailableTask where
  TicketID : String := ""
  Summary : String := ""
  Description : String := ""
  Metadata : List (String × String) := []
  deriving DecidableEq, Repr

/-- `AnalysisResult` (part_002 lines 294-309). -/
structure AnalysisResult where
  KeyThemes : List String := []
  RiskLevel : String := ""
  Priority : String := ""
  Suggestion : String := ""
  Requirements : List String := []
  LLMUsed : Bool := false
  Confidence : ℚ := 0
  TechnicalAnalysis : String := ""
  BusinessImpact : String := ""
  NextSteps : String := ""
  RecommendedPriority : String := ""
  RecommendedComponents : List String := []
  RecommendedLabels : List String := []
  deriving DecidableEq, Repr

/-- Theme of one summary word (the ordered switch inside
`performBasicAnalysis`; the first matching case wins). -/
def wordTheme (w : String) : Option String :=
  if goContains w "bug" || goContains w "fix" || goContains w "issue" ||
     goContains w "error" || goContains w "problem" then some "problem"
  else if goContains w "feature" || goContains w "add" || goContains w "new" ||
     goContains w "create" then some "new_functionality"
  else if goContains w "improve" || goContains w "enhance" || goContains w "update" ||
     goContains w "upgrade" then some "improvement"
  else if goContains w "document" || goContains w "doc" || goContains w "guide" ||
     goContains w "manual" then some "documentation"
  else if goContains w "research" || goContains w "investigate" || goContains w "analyze" ||
     goContains w "explore" then some "research"
  else none

/-- The five theme tags in a fixed order.  Go collects them in a
`map[string]bool` and iterates it in unspecified order; every claim below
depends only on membership or on the singleton default. -/
def allThemes : List String :=
  ["problem", "new_functionality", "improvement", "documentation", "research"]

/-- Key themes computed by `performBasicAnalysis` from the summary words. -/
def basicThemes (summary : String) : List String :=
  let words := goFields (goToLower summary)
  let found := allThemes.filter (fun th => words.any (fun w => wordTheme w = some th))
  if found = [] then ["task"] else found

/-- Priority lookup of `performBasicAnalysis`: the first metadata entry
whose lowered key mentions priority/importance/urgency, lower-cased;
default `"medium"`. -/
def basicPriority (md : List (String × String)) : String :=
  match md.find? (fun p =>
      goContains (goToLower p.1) "priority" || goContains (goToLower p.1) "importance" ||
      goContains (goToLower p.1) "urgency") with
  | some p => goToLower p.2
  | none => "medium"

/-- Risk derivation of `performBasicAnalysis`: substring matching on the
priority, defaulting to `"low"`. -/
def basicRiskLevel (priority : String) : String :=
  if goContains priority "high" || goContains priority "critical" ||
     goContains priority "urgent" || goContains priority "important" then "high"
  else if goContains priority "medium" || goContains priority "normal" ||
     goContains priority "moderate" then "medium"
  else "low"

/-- `performBasicAnalysis` (part_002 lines 586-680): the heuristic analysis
strategy. -/
def performBasicAnalysis (task : TicketAvailableTask) : AnalysisResult :=
  let keyThemes := basicThemes task.Summary
  let priority := basicPriority task.Metadata
  let riskLevel := basicRiskLevel priority
  let suggestion :=
    if riskLevel = "high" then
      "This is a high-priority item that should be addressed promptly."
    else if keyThemes.contains "problem" then
      "This issue should be investigated to determine its impact."
    else if keyThemes.contains "new_functionality" then
      "This new functionality should be evaluated for alignment with goals."
    else if keyThemes.contains "improvement" then
      "This improvement could enhance existing functionality."
    else
      "Review this item and assign appropriate resources."
  { KeyThemes := keyThemes
    RiskLevel := riskLevel
    Priority := priority
    Suggestion := suggestion
    TechnicalAnalysis := "No detailed technical analysis available without LLM."
    BusinessImpact := "Impact on operations cannot be determined without further analysis."
    NextSteps := "Review this item with the team to determine appropriate action."
    RecommendedPriority := priority
    Requirements :=
      ["Gather more detailed information about the scope",
       "Assess impact on existing systems",
       "Consider testing and validation requirements"]
    LLMUsed := false
    Confidence := 1 / 2 }

/-- The placeholder result `analyzeTicketInfo` builds when the LLM path
fails (part_002 lines 322-335). -/
def llmFailureResult (errMsg : String) : AnalysisResult :=
  { KeyThemes := ["error"]
    RiskLevel := "unknown"
    Priority := "unknown"
    Suggestion := "LLM analysis failed"
    Requirements := ["Fix LLM integration"]
    LLMUsed := false
    Confidence := 0
    TechnicalAnalysis := "LLM analysis error: " ++ errMsg
    BusinessImpact := "Unable to determine due to LLM error"
    NextSteps := "Check LLM configuration and try again" }

/-- String field extraction of `parseLLMResponse`: only a JSON string is
accepted (`jsonResponse[k].(string)` type assertion). -/
def llmStrField (m : List (String × Json)) (k : String) : Option String :=
  match goAssocGet m k with
  | some (.jstr s) => some s
  | _ => none

/-- String array field extraction of `parseLLMResponse`: a JSON array whose
string elements are kept and other elements skipped. -/
def llmStrArrField (m : List (String × Json)) (k : String) : Option (List String) :=
  match goAssocGet m k with
  | some (.jarr xs) =>
    some (xs.filterMap (fun j => match j with | .jstr s => some s | _ => none))
  | _ => none

/-- Field-by-field construction of the `AnalysisResult` inside
`parseLLMResponse` (part_002 lines 447-524). -/
def buildLLMResult (m : List (String × Json)) : AnalysisResult :=
  { LLMUsed := true
    Confidence := 9 / 10
    KeyThemes := (llmStrArrField m "keyThemes").getD []
    RiskLevel := match llmStrField m "riskLevel" with
      | some s => normalizeRiskLevel s
      | none => ""
    Priority := match llmStrField m "priority" with
      | some s => normalizePriority s
      | none => ""
    Suggestion := (llmStrField m "suggestion").getD ""
    Requirements := (llmStrArrField m "requirements").getD []
    TechnicalAnalysis := (llmStrField m "technicalAnalysis").getD ""
    BusinessImpact := (llmStrField m "businessImpact").getD ""
    NextSteps := (llmStrField m "nextSteps").getD ""
    RecommendedPriority := match llmStrField m "recommendedPriority" with
      | some s => normalizePriority s
      | none => ""
    RecommendedComponents := (llmStrArrField m "recommendedComponents").getD []
    RecommendedLabels := (llmStrArrField m "recommendedLabels").getD [] }

/-- `parseLLMResponse` (part_002 lines 434-525): extract the JSON span,
unmarshal it into a generic map, and populate the result. -/
def parseLLMResponse (response : String) : GoResult AnalysisResult :=
  match extractJSON response with
  | .panics => .panics
  | .err e => .err ("failed to extract JSON from response: " ++ e)
  | .ok jsonStr =>
    match goJsonParse jsonStr with
    | none => .err "failed to parse JSON"
    | some (.jobj fields) => .ok (buildLLMResult (collapseObj fields))
    | some .null => .ok (buildLLMResult [])
    | some _ => .err "failed to parse JSON"

/-- `analyzeWithLLM` (part_002 lines 342-362).  The prompt built by
`createLLMPrompt` only feeds the external LLM collaborator, so the
collaborator is modelled by the outcome of its `Complete` call. -/
def analyzeWithLLM (callOutcome : GoResult String) : GoResult AnalysisResult :=
  match callOutcome with
  | .panics => .panics
  | .err e => .err ("LLM completion failed: " ++ e)
  | .ok response =>
    match parseLLMResponse response with
    | .ok r => .ok { r with LLMUsed := true }
    | .err e => .err ("failed to parse LLM response: " ++ e)
    | .panics => .panics

/-- `analyzeTicketInfo` (part_002 lines 313-339).  `llm = none` models a
nil `llmClient`; `llm = some c` models a configured client whose `Complete`
call returns `c`. -/
def analyzeTicketInfo (llm : Option (GoResult String)) (task : TicketAvailableTask) :
    GoResult AnalysisResult :=
  match llm with
  | none => .ok (performBasicAnalysis task)
  | some call =>
    match analyzeWithLLM call with
    | .ok r => .ok r
    | .err e => .ok (llmFailureResult e)
    | .panics => .panics

/-- Sequencing of fallible Go computations. -/
def GoResult.bind {α β : Type} : GoResult α → (α → GoResult β) → GoResult β
  | .ok a, f => f a
  | .err e, _ => .err e
  | .panics, _ => .panics

/-- `fmt.Sprintf "%v"` of a decoded JSON value.  Strings, booleans and
numbers are rendered faithfully; the composite renderings are abbreviations
(no claim inspects the formatted text of a composite value). -/
def goFormatValue : Json → String
  | .null => "<nil>"
  | .jbool b => if b then "true" else "false"
  | .jnum raw => raw
  | .jstr s => s
  | .jarr _ => "[...]"
  | .jobj _ => "map[...]"

/-- One part of an A2A protocol message: a `DataPart` carrying a decoded
JSON value, or a `TextPart` carrying text. -/
inductive MsgPart where
  | dataPart (data : Json)
  | textPart (text : String)

/-- `json.Unmarshal` of one value into a string struct field: absent and
`null` keep the old value, a JSON string overwrites it, anything else is a
type error. -/
def decodeStrFieldInto (m : List (String × Json)) (k : String) (old : String) :
    GoResult String :=
  match goAssocGet m k with
  | none => .ok old
  | some .null => .ok old
  | some (.jstr s) => .ok s
  | some _ => .err ("json: cannot unmarshal value into string field " ++ k)

/-- `json.Unmarshal` of one value into a `map[string]string`, merging into
the existing map. -/
def decodeStringMap (j : Json) (old : List (String × String)) :
    GoResult (List (String × String)) :=
  match j with
  | .null => .ok old
  | .jobj fs =>
    (collapseObj fs).foldl
      (fun acc p =>
        match acc, p.2 with
        | .ok m, .jstr s => .ok (goAssocPut m p.1 s)
        | .ok _, _ => .err "json: cannot unmarshal value into map[string]string"
        | e, _ => e)
      (.ok old)
  | _ => .err "json: cannot unmarshal value into map[string]string"

/-- `json.Unmarshal` of a JSON value into `models.TicketAvailableTask`,
merging into an existing value (absent fields keep their old contents;
top-level `null` is a no-op).  Go's partial writes before a type error are
not modelled: a type error yields no update at all. -/
def unmarshalTicketTaskInto (t : TicketAvailableTask) (j : Json) :
    GoResult TicketAvailableTask :=
  match j with
  | .null => .ok t
  | .jobj fs =>
    let m := collapseObj fs
    (decodeStrFieldInto m "ticketId" t.TicketID).bind fun tid =>
    (decodeStrFieldInto m "summary" t.Summary).bind fun sm =>
    (decodeStrFieldInto m "description" t.Description).bind fun ds =>
    let mdRes : GoResult (List (String × String)) :=
      match goAssocGet m "metadata" with
      | none => .ok t.Metadata
      | some v => decodeStringMap v t.Metadata
    mdRes.bind fun md =>
    .ok { TicketID := tid, Summary := sm, Description := ds, Metadata := md }
  | _ => .err "json: cannot unmarshal non-object into TicketAvailableTask"

/-- The placeholder filling of `extractTaskData` (part_002 lines 256-262 and
270-280). -/
def fillPlaceholders (t : TicketAvailableTask) : TicketAvailableTask :=
  { t with
    TicketID := if t.TicketID = "" then "UNKNOWN-ID" else t.TicketID
    Summary := if t.Summary = "" then "No summary available" else t.Summary }

/-- One key/value step of the generic map extraction of `extractTaskData`
(part_002 lines 214-254). -/
def mapExtractStep (t : TicketAvailableTask) (kv : String × Json) : TicketAvailableTask :=
  let key := kv.1
  let value := kv.2
  if key = "id" ∨ key = "taskId" ∨ key = "ticketId" then
    { t with TicketID := goFormatValue value }
  else if key = "title" ∨ key = "summary" ∨ key = "description" then
    { t with Summary := goFormatValue value }
  else if key = "metadata" then
    match value with
    | .jobj m =>
      let md := (collapseObj m).foldl (fun md p => goAssocPut md p.1 (goFormatValue p.2)) t.Metadata
      { t with Metadata := md }
    | _ => t
  else
    match value with
    | .jstr s => { t with Metadata := goAssocPut t.Metadata key s }
    | .jobj m =>
      let md := (collapseObj m).foldl
        (fun md p => goAssocPut md (key ++ "_" ++ p.1) (goFormatValue p.2)) t.Metadata
      { t with Metadata := md }
    | v => { t with Metadata := goAssocPut t.Metadata key (goFormatValue v) }

/-- The whole generic map branch of `extractTaskData`: extract every
key/value pair, then substitute placeholders for missing identity fields.
Go iterates the map in unspecified order; claims use single-match maps. -/
def extractTaskDataMap (fields : List (String × Json)) : TicketAvailableTask :=
  fillPlaceholders ((collapseObj fields).foldl mapExtractStep { Metadata := [] })

/-- MsgPart loop of `extractTaskData` (part_002 lines 200-289): the first
`DataPart` is decisive - a map is always accepted (with placeholders), any
other data either unmarshals into the struct or aborts with an error. -/
def extractTaskDataLoop : List MsgPart → GoResult TicketAvailableTask
  | [] => .err "failed to extract task data from message parts"
  | MsgPart.textPart _ :: rest => extractTaskDataLoop rest
  | MsgPart.dataPart d :: _ =>
    match d with
    | .jobj fs => .ok (extractTaskDataMap fs)
    | _ =>
      match unmarshalTicketTaskInto {} d with
      | .ok t => .ok (fillPlaceholders t)
      | _ => .err "failed to parse data part"

/-- `extractTaskData` of the InformationGatheringAgent (part_002 lines
186-292). -/
def extractTaskData (parts : List MsgPart) : GoResult TicketAvailableTask :=
  if parts.isEmpty then .err "message has no parts" else extractTaskDataLoop parts

/-- `common.GetStringValue`: the first of the candidate keys holding a JSON
string; keys holding non-strings are skipped. -/
def GetStringValue (m : List (String × Json)) : List String → Option String
  | [] => none
  | k :: ks =>
    match goAssocGet m k with
    | some (.jstr s) => some s
    | _ => GetStringValue m ks

/-- `common.ExtractFromMap` (internal/common/data.go lines 82-127). -/
def ExtractFromMap (data : List (String × Json)) (t : TicketAvailableTask) :
    GoResult TicketAvailableTask :=
  match GetStringValue data ["ticketId", "ticket_id", "id"] with
  | none => .err "no ticket ID found in data"
  | some tid =>
    match GetStringValue data ["summary", "title", "name"] with
    | none => .err "no summary found in data"
    | some sm =>
      let ds := (GetStringValue data ["description", "desc", "body"]).getD t.Description
      let md := ["priority", "status", "assignee", "reporter", "type", "components"].foldl
        (fun md f =>
          match GetStringValue data [f] with
          | some v => goAssocPut md f v
          | none => md) t.Metadata
      if tid ≠ "" ∧ sm ≠ "" then
        .ok { TicketID := tid, Summary := sm, Description := ds, Metadata := md }
      else .err "missing required fields in data"

/-- MsgPart loop of `common.ExtractTicketData` (internal/common/data.go lines
20-76), threading the partially-filled task through the attempts. -/
def ExtractTicketDataLoop (t : TicketAvailableTask) : List MsgPart → GoResult TicketAvailableTask
  | [] => .err "could not extract ticket data from message"
  | MsgPart.dataPart d :: rest =>
    (match unmarshalTicketTaskInto t d with
     | .ok t2 =>
       if t2.TicketID ≠ "" ∧ t2.Summary ≠ "" then .ok t2
       else
         match d with
         | .jobj fs =>
           (match ExtractFromMap (collapseObj fs) t2 with
            | .ok t3 => .ok t3
            | _ => ExtractTicketDataLoop t2 rest)
         | _ => ExtractTicketDataLoop t2 rest
     | _ =>
       match d with
       | .jobj fs =>
         (match ExtractFromMap (collapseObj fs) t with
          | .ok t3 => .ok t3
          | _ => ExtractTicketDataLoop t rest)
       | _ => ExtractTicketDataLoop t rest)
  | MsgPart.textPart txt :: rest =>
    match goJsonParse txt with
    | some j =>
      (match unmarshalTicketTaskInto t j with
       | .ok t2 =>
         if t2.TicketID ≠ "" ∧ t2.Summary ≠ "" then .ok t2
         else
           match j with
           | .jobj fs =>
             (match ExtractFromMap (collapseObj fs) t2 with
              | .ok t3 => .ok t3
              | _ => ExtractTicketDataLoop t2 rest)
           | _ => ExtractTicketDataLoop t2 rest
       | _ =>
         match j with
         | .jobj fs =>
           (match ExtractFromMap (collapseObj fs) t with
            | .ok t3 => .ok t3
            | _ => ExtractTicketDataLoop t rest)
         | _ => ExtractTicketDataLoop t rest)
    | none => ExtractTicketDataLoop t rest

/-- `common.ExtractTicketData` (internal/common/data.go lines 14-79). -/
def ExtractTicketData (parts : List MsgPart) : GoResult TicketAvailableTask :=
  if parts.isEmpty then .err "message has no parts"
  else ExtractTicketDataLoop {} parts

/-- `strconv.ParseInt` on a JSON number literal, as `encoding/json` uses it
for integer struct fields: an optional sign followed by plain digits;
fractions and exponents are rejected. -/
def parseIntLit (raw : String) : Option Int :=
  let core : List Char → Option Nat := fun ds =>
    if ds ≠ [] ∧ ds.all Char.isDigit then
      some (ds.foldl (fun n c => n * 10 + (c.toNat - '0'.toNat)) 0)
    else none
  match raw.data with
  | '-' :: t => (core t).map (fun n => -(n : Int))
  | s => (core s).map (fun n => (n : Int))

/-- `json.Unmarshal` of one value into an integer struct field. -/
def decodeIntField (m : List (String × Json)) (k : String) (old : Int) : GoResult Int :=
  match goAssocGet m k with
  | none => .ok old
  | some .null => .ok old
  | some (.jnum raw) =>
    (match parseIntLit raw with
     | some n => .ok n
     | none => .err ("json: cannot unmarshal number into int field " ++ k))
  | some _ => .err ("json: cannot unmarshal value into int field " ++ k)

/-- `jira.ChangelogItem` (internal/jira/webhook.go lines 47-54). -/
structure ChangelogItem where
  Field : String := ""
  Fieldtype : String := ""
  From : String := ""
  FromString : String := ""
  To : String := ""
  ToString : String := ""
  deriving DecidableEq, Repr

/-- `jira.Changelog` (internal/jira/webhook.go lines 41-44). -/
structure Changelog where
  Id : Int := 0
  Items : List ChangelogItem := []
  deriving DecidableEq, Repr

/-- `jira.JiraIssue` (internal/jira/webhook.go lines 22-27). -/
structure JiraIssue where
  ID : String := ""
  Self : String := ""
  Key : String := ""
  Fields : List (String × Json) := []

/-- `jira.JiraUser` (internal/jira/webhook.go lines 30-38).  `Active` has
type `interface\x7b\x7d` in Go; it is kept as an optional raw JSON value. -/
structure JiraUser where
  Self : String := ""
  Name : String := ""
  Key : String := ""
  EmailAddress : String := ""
  AvatarURLs : List (String × String) := []
  DisplayName : String := ""
  Active : Option Json := none

/-- `jira.JiraComment` (internal/jira/webhook.go lines 57-65). -/
structure JiraComment where
  ID : String := ""
  Self : String := ""
  Body : String := ""
  Author : JiraUser := {}
  UpdateAuthor : JiraUser := {}
  Created : String := ""
  Updated : String := ""

/-- `jira.JiraWebhookPayload` (internal/jira/webhook.go lines 11-19). -/
structure JiraWebhookPayload where
  ID : Int := 0
  Timestamp : Int := 0
  Issue : JiraIssue := {}
  User : JiraUser := {}
  Changelog : Option Changelog := none
  Comment : Option JiraComment := none
  WebhookEvent : String := ""

/-- `json.Unmarshal` into `map[string]interface\x7b\x7d`. -/
def decodeAnyMap (j : Json) (old : List (String × Json)) : GoResult (List (String × Json)) :=
  match j with
  | .null => .ok old
  | .jobj fs => .ok (collapseObj fs)
  | _ => .err "json: cannot unmarshal value into map"

/-- `json.Unmarshal` into `jira.ChangelogItem`. -/
def decodeChangelogItem (j : Json) : GoResult ChangelogItem :=
  match j with
  | .null => .ok {}
  | .jobj fs =>
    let m := collapseObj fs
    (decodeStrFieldInto m "field" "").bind fun f =>
    (decodeStrFieldInto m "fieldtype" "").bind fun ft =>
    (decodeStrFieldInto m "from" "").bind fun fr =>
    (decodeStrFieldInto m "fromString" "").bind fun frs =>
    (decodeStrFieldInto m "to" "").bind fun to1 =>
    (decodeStrFieldInto m "toString" "").bind fun tos =>
    .ok { Field := f, Fieldtype := ft, From := fr, FromString := frs, To := to1, ToString := tos }
  | _ => .err "json: cannot unmarshal value into ChangelogItem"

/-- `json.Unmarshal` into `[]jira.ChangelogItem`. -/
def decodeChangelogItems (j : Json) : GoResult (List ChangelogItem) :=
  match j with
  | .null => .ok []
  | .jarr xs =>
    xs.foldr
      (fun x acc =>
        (decodeChangelogItem x).bind fun it =>
        acc.bind fun its => .ok (it :: its))
      (.ok [])
  | _ => .err "json: cannot unmarshal value into []ChangelogItem"

/-- `json.Unmarshal` into `*jira.Changelog`. -/
def decodeChangelog (j : Json) : GoResult (Option Changelog) :=
  match j with
  | .null => .ok none
  | .jobj fs =>
    let m := collapseObj fs
    (decodeIntField m "id" 0).bind fun i =>
    let itemsRes : GoResult (List ChangelogItem) :=
      match goAssocGet m "items" with
      | none => .ok []
      | some v => decodeChangelogItems v
    itemsRes.bind fun its =>
    .ok (some { Id := i, Items := its })
  | _ => .err "json: cannot unmarshal value into Changelog"

/-- `json.Unmarshal` into `jira.JiraUser`. -/
def decodeJiraUser (j : Json) : GoResult JiraUser :=
  match j with
  | .null => .ok {}
  | .jobj fs =>
    let m := collapseObj fs
    (decodeStrFieldInto m "self" "").bind fun sf =>
    (decodeStrFieldInto m "name" "").bind fun nm =>
    (decodeStrFieldInto m "key" "").bind fun ky =>
    (decodeStrFieldInto m "emailAddress" "").bind fun em =>
    let avRes : GoResult (List (String × String)) :=
      match goAssocGet m "avatarUrls" with
      | none => .ok []
      | some v => decodeStringMap v []
    avRes.bind fun av =>
    (decodeStrFieldInto m "displayName" "").bind fun dn =>
    .ok { Self := sf, Name := nm, Key := ky, EmailAddress := em,
          AvatarURLs := av, DisplayName := dn, Active := goAssocGet m "active" }
  | _ => .err "json: cannot unmarshal value into JiraUser"

/-- `json.Unmarshal` into `jira.JiraIssue`. -/
def decodeJiraIssue (j : Json) : GoResult JiraIssue :=
  match j with
  | .null => .ok {}
  | .jobj fs =>
    let m := collapseObj fs
    (decodeStrFieldInto m "id" "").bind fun i =>
    (decodeStrFieldInto m "self" "").bind fun sf =>
    (decodeStrFieldInto m "key" "").bind fun ky =>
    let fdRes : GoResult (List (String × Json)) :=
      match goAssocGet m "fields" with
      | none => .ok []
      | some v => decodeAnyMap v []
    fdRes.bind fun fd =>
    .ok { ID := i, Self := sf, Key := ky, Fields := fd }
  | _ => .err "json: cannot unmarshal value into JiraIssue"

/-- `json.Unmarshal` into `*jira.JiraComment`. -/
def decodeJiraComment (j : Json) : GoResult (Option JiraComment) :=
  match j with
  | .null => .ok none
  | .jobj fs =>
    let m := collapseObj fs
    (decodeStrFieldInto m "id" "").bind fun i =>
    (decodeStrFieldInto m "self" "").bind fun sf =>
    (decodeStrFieldInto m "body" "").bind fun bd =>
    let auRes : GoResult JiraUser :=
      match goAssocGet m "author" with
      | none => .ok {}
      | some v => decodeJiraUser v
    auRes.bind fun au =>
    let uaRes : GoResult JiraUser :=
      match goAssocGet m "updateAuthor" with
      | none => .ok {}
      | some v => decodeJiraUser v
    uaRes.bind fun ua =>
    (decodeStrFieldInto m "created" "").bind fun cr =>
    (decodeStrFieldInto m "updated" "").bind fun up =>
    .ok (some { ID := i, Self := sf, Body := bd, Author := au, UpdateAuthor := ua,
                Created := cr, Updated := up })
  | _ => .err "json: cannot unmarshal value into JiraComment"

/-- `json.Unmarshal` of a whole webhook body into `jira.JiraWebhookPayload`
(top-level `null` is a no-op on the zero value; a non-object is an error). -/
def unmarshalJiraWebhookPayload (j : Json) : GoResult JiraWebhookPayload :=
  match j with
  | .null => .ok {}
  | .jobj fs =>
    let m := collapseObj fs
    (decodeIntField m "id" 0).bind fun i =>
    (decodeIntField m "timestamp" 0).bind fun ts =>
    let issRes : GoResult JiraIssue :=
      match goAssocGet m "issue" with
      | none => .ok {}
      | some v => decodeJiraIssue v
    issRes.bind fun iss =>
    let usrRes : GoResult JiraUser :=
      match goAssocGet m "user" with
      | none => .ok {}
      | some v => decodeJiraUser v
    usrRes.bind fun usr =>
    let clRes : GoResult (Option Changelog) :=
      match goAssocGet m "changelog" with
      | none => .ok none
      | some v => decodeChangelog v
    clRes.bind fun cl =>
    let cmRes : GoResult (Option JiraComment) :=
      match goAssocGet m "comment" with
      | none => .ok none
      | some v => decodeJiraComment v
    cmRes.bind fun cm =>
    (decodeStrFieldInto m "webhookEvent" "").bind fun we =>
    .ok { ID := i, Timestamp := ts, Issue := iss, User := usr,
          Changelog := cl, Comment := cm, WebhookEvent := we }
  | _ => .err "json: cannot unmarshal non-object into JiraWebhookPayload"

/-- `jira.WebhookRequest` (internal/jira/webhook.go lines 149-159); the
same shape is also declared locally in jiraretrieval.go lines 519-529. -/
structure WebhookRequest where
  TicketID : String := ""
  Event : String := ""
  UserName : String := ""
  UserEmail : String := ""
  ProjectKey : String := ""
  Changes : List (String × String) := []
  WebhookName : String := ""
  Timestamp : String := ""
  CustomFields : List (String × String) := []
  deriving DecidableEq, Repr

/-- `getEventTypeFromWebhookEvent` (internal/jira/webhook.go lines 128-145). -/
def getEventTypeFromWebhookEvent (webhookEvent : String) : String :=
  if webhookEvent = "jira:issue_created" then "created"
  else if webhookEvent = "jira:issue_updated" then "updated"
  else if webhookEvent = "jira:issue_commented" then "commented"
  else if webhookEvent = "jira:issue_deleted" then "deleted"
  else
    match goSplit webhookEvent ':' with
    | _ :: second :: _ => second
    | _ => webhookEvent

/-- Stand-in for `time.Unix(ts/1000, 0).Format(time.RFC3339)`: the time
package is an external collaborator and no claim reads the timestamp. -/
def goFormatUnixSeconds (secs : Int) : String :=
  "unix:" ++ toString secs

/-- `json.Marshal` of a decoded JSON value (string escaping abbreviated to
quote and backslash; no claim inspects encoded composite values). -/
def jsonEncodeStr (s : String) : String :=
  "\"" ++ (s.data.flatMap (fun c =>
    if c = '"' then ['\\', '"'] else if c = '\\' then ['\\', '\\'] else [c])).asString ++ "\""

mutual

/-- Encoder for JSON values. -/
def jsonEncode : Json → String
  | .null => "null"
  | .jbool b => if b then "true" else "false"
  | .jnum raw => raw
  | .jstr s => jsonEncodeStr s
  | .jarr xs => "[" ++ jsonEncodeList xs ++ "]"
  | .jobj fs => "\x7b" ++ jsonEncodeFields fs ++ "\x7d"

/-- Encoder for array elements. -/
def jsonEncodeList : List Json → String
  | [] => ""
  | [x] => jsonEncode x
  | x :: xs => jsonEncode x ++ "," ++ jsonEncodeList xs

/-- Encoder for object members. -/
def jsonEncodeFields : List (String × Json) → String
  | [] => ""
  | [(k, v)] => jsonEncodeStr k ++ ":" ++ jsonEncode v
  | (k, v) :: fs => jsonEncodeStr k ++ ":" ++ jsonEncode v ++ "," ++ jsonEncodeFields fs

end

/-- Custom-field stringification of `TransformJiraWebhook` (lines 108-121):
strings pass through, scalars are `%v`-formatted, composites are
JSON-encoded (`json.Marshal` cannot fail on a decoded value). -/
def customFieldValue : Json → String
  | .jstr s => s
  | .jnum raw => raw
  | .jbool b => if b then "true" else "false"
  | v => jsonEncode v

/-- The pure transformation step of `TransformJiraWebhook` (internal/jira/
webhook.go lines 74-124), applied to an already-unmarshalled payload. -/
def transformPayload (p : JiraWebhookPayload) : WebhookRequest :=
  let changes : List (String × String) :=
    match p.Changelog with
    | some cl =>
      if cl.Items ≠ [] then
        cl.Items.foldl (fun m it => goAssocPut m it.Field it.ToString) []
      else []
    | none => []
  { TicketID := p.Issue.Key
    Event := getEventTypeFromWebhookEvent p.WebhookEvent
    UserName := p.User.Name
    UserEmail := p.User.EmailAddress
    ProjectKey := match goSplit p.Issue.Key '-' with
      | k :: _ => k
      | [] => ""
    Timestamp := if p.Timestamp > 0 then goFormatUnixSeconds (Int.tdiv p.Timestamp 1000) else "now"
    WebhookName := p.WebhookEvent
    Changes := changes
    CustomFields :=
      if p.Issue.Fields.isEmpty then []
      else p.Issue.Fields.foldl (fun m fv => goAssocPut m fv.1 (customFieldValue fv.2)) [] }

/-- `TransformJiraWebhook` (internal/jira/webhook.go lines 68-125) on a
decoded JSON document. -/
def TransformJiraWebhook (j : Json) : GoResult WebhookRequest :=
  (unmarshalJiraWebhookPayload j).bind fun p => .ok (transformPayload p)

/-- `TransformJiraWebhook` on raw bytes: `json.Unmarshal` then transform. -/
def TransformJiraWebhookBytes (payload : String) : GoResult WebhookRequest :=
  match goJsonParse payload with
  | none => .err "invalid JSON payload"
  | some j => TransformJiraWebhook j

/-- `json.Unmarshal` of a webhook body into the flat `WebhookRequest`
shape declared in jiraretrieval.go (lines 519-529). -/
def decodeWebhookRequest (j : Json) : GoResult WebhookRequest :=
  match j with
  | .null => .ok {}
  | .jobj fs =>
    let m := collapseObj fs
    (decodeStrFieldInto m "ticketId" "").bind fun tid =>
    (decodeStrFieldInto m "event" "").bind fun ev =>
    (decodeStrFieldInto m "userName" "").bind fun un =>
    (decodeStrFieldInto m "userEmail" "").bind fun ue =>
    (decodeStrFieldInto m "projectKey" "").bind fun pk =>
    let chRes : GoResult (List (String × String)) :=
      match goAssocGet m "changes" with
      | none => .ok []
      | some v => decodeStringMap v []
    chRes.bind fun ch =>
    (decodeStrFieldInto m "webhookName" "").bind fun wn =>
    (decodeStrFieldInto m "timestamp" "").bind fun ts =>
    let cfRes : GoResult (List (String × String)) :=
      match goAssocGet m "customFields" with
      | none => .ok []
      | some v => decodeStringMap v []
    cfRes.bind fun cf =>
    .ok { TicketID := tid, Event := ev, UserName := un, UserEmail := ue, ProjectKey := pk,
          Changes := ch, WebhookName := wn, Timestamp := ts, CustomFields := cf }
  | _ => .err "json: cannot unmarshal non-object into WebhookRequest"

/-- An inbound HTTP request as `HandleWebhook` observes it.  `BodyReadErr`
models an `io.ReadAll` failure. -/
structure HttpRequest where
  Method : String := "POST"
  ContentType : String := "application/json"
  BodyReadErr : Bool := false
  Body : String := ""
  deriving DecidableEq, Repr

/-- An HTTP response: status code plus the top-level keys/values of the
JSON body written with it. -/
structure HttpResponse where
  Code : Nat
  Fields : List (String × String)
  deriving DecidableEq, Repr

/-- `returnJSONError` (jiraretrieval.go lines 638-648): a JSON body whose
single top-level key is `error`. -/
def returnJSONError (statusCode : Nat) (message : String) : HttpResponse :=
  { Code := statusCode, Fields := [("error", message)] }

/-- `HandleWebhook` (jiraretrieval.go lines 682-777).  `processOk` is the
outcome of the `ProcessWebhook` collaborator call and `requestId` the
time-derived request identifier. -/
def HandleWebhook (req : HttpRequest) (processOk : Bool) (requestId : String) : HttpResponse :=
  if req.Method ≠ "POST" then
    returnJSONError 405 "Method not allowed: Only POST requests are accepted"
  else if req.ContentType ≠ "application/json" ∧ ¬ goContains req.ContentType "application/json" then
    returnJSONError 415 "Content type must be application/json"
  else if req.BodyReadErr then
    returnJSONError 400 "Failed to read request body"
  else if req.Body = "" then
    returnJSONError 400 "Request body cannot be empty"
  else
    match goJsonParse req.Body with
    | none => returnJSONError 400 "Failed to parse request body as JSON"
    | some j =>
      match decodeWebhookRequest j with
      | .ok webhookReq =>
        if webhookReq.TicketID = "" then
          returnJSONError 400 "Missing required field: ticketId"
        else if webhookReq.Event = "" then
          returnJSONError 400 "Missing required field: event"
        else if processOk then
          { Code := 200
            Fields :=
              [("status", "success"),
               ("ticketId", webhookReq.TicketID),
               ("message", "Successfully processed webhook for ticket " ++ webhookReq.TicketID),
               ("requestId", requestId)] }
        else returnJSONError 500 "Failed to process webhook"
      | _ => returnJSONError 400 "Failed to parse request body as JSON"

/-- The fixed category table of `formatJiraComment` (jiraretrieval.go lines
467-472).  Go iterates this `map` in unspecified order; the reference-count
claims are order-insensitive. -/
def commentCategories : List (String × List String) :=
  [("Technical Analysis", ["TechnicalAnalysis", "CodeReview", "ArchitectureImpact"]),
   ("Business Impact", ["BusinessImpact", "UserImpact", "CustomerImpact"]),
   ("Recommendations", ["RecommendedPriority", "RecommendedComponents", "RecommendedLabels", "NextSteps"]),
   ("Additional Information", ["References", "RelatedTickets", "Context"])]

/-- Is the collected field `k` present with a non-empty value?
(`value, ok := task.CollectedFields[fieldName]; ok && value != ""`). -/
def fieldNonEmpty (fields : List (String × String)) (k : String) : Bool :=
  match goAssocGet fields k with
  | some v => v ≠ ""
  | none => false

/-- The suggestion block of `formatJiraComment` (lines 461-464), as the
field names it references. -/
def suggestionRefs (fields : List (String × String)) : List String :=
  if fieldNonEmpty fields "Suggestion" then ["Suggestion"] else []

/-- The category sections of `formatJiraComment` (lines 477-493), as the
ordered field names they reference; a category field is emitted iff present
and non-empty. -/
def categoryRefs (fields : List (String × String)) : List String :=
  commentCategories.flatMap (fun c => c.2.filter (fieldNonEmpty fields))

/-- `processedFields` after the category pass (lines 475-493): the
`Suggestion` marker plus exactly the category fields that were emitted. -/
def processedAfterCategories (fields : List (String × String)) : List String :=
  "Suggestion" :: categoryRefs fields

/-- The trailing "Other Analysis Details" section (lines 496-507), as the
field names it references. -/
def otherRefs (fields : List (String × String)) : List String :=
  (fields.filter (fun p =>
    !((processedAfterCategories fields).contains p.1) && p.2 != "")).map Prod.fst

/-- `formatJiraComment` (jiraretrieval.go lines 454-516), reduced to the
sequence of `CollectedFields` entries the produced comment references, in
emission order; the surrounding literal text, panels and timestamp footer
reference no field. -/
def formatJiraCommentRefs (fields : List (String × String)) : List String :=
  suggestionRefs fields ++ categoryRefs fields ++ otherRefs fields

/-- Whether each `handle.UpdateStatus` / `handle.AddArtifact` call of one
`Process` run succeeds (the task-manager handle is an external
collaborator). -/
structure TaskHandleEnv where
  updProcessing : Bool := true
  updAnalyzing : Bool := true
  updGenerating : Bool := true
  addArtifactOk : Bool := true
  updCompleted : Bool := true
  deriving DecidableEq, Repr

/-- `Process` of the InformationGatheringAgent (part_002 lines 58-183),
reduced to the sequence of task states passed to `handle.UpdateStatus`
(first component) and whether the run returned an error (second component).
The `generating_summary` update failure is logged and execution continues;
`generateSummary` is a total string builder and `json.Marshal` of the
result struct cannot fail, so neither aborts a run. -/
def ProcessRun (llm : Option (GoResult String)) (parts : List MsgPart)
    (env : TaskHandleEnv) : List String × Bool :=
  let trace := ["processing"]
  if ¬ env.updProcessing then (trace, true)
  else
    match extractTaskData parts with
    | .err _ => (trace, true)
    | .panics => (trace, true)
    | .ok task =>
      let trace := trace ++ ["analyzing_ticket"]
      if ¬ env.updAnalyzing then (trace, true)
      else
        match analyzeTicketInfo llm task with
        | .panics => (trace, true)
        | .err _ => (trace, true)
        | .ok _ =>
          let trace := trace ++ ["generating_summary"]
          if ¬ env.addArtifactOk then (trace, true)
          else
            let trace := trace ++ ["completed"]
            if ¬ env.updCompleted then (trace, true) else (trace, false)

/-! ## Helper lemmas -/

theorem normalizeRiskLevel_mem (s : String) :
    normalizeRiskLevel s ∈ (["high", "medium", "low"] : List String) := by
  dsimp only [normalizeRiskLevel]
  split
  · simp
  · split
    · simp
    · split <;> simp

theorem normalizePriority_mem (s : String) :
    normalizePriority s ∈ (["high", "medium", "low"] : List String) := by
  dsimp only [normalizePriority]
  split
  · simp
  · split
    · simp
    · split <;> simp

theorem normalizeRiskLevel_idem (s : String) :
    normalizeRiskLevel (normalizeRiskLevel s) = normalizeRiskLevel s := by
  have h := normalizeRiskLevel_mem s
  simp only [List.mem_cons, List.not_mem_nil, or_false] at h
  rcases h with h | h | h <;> rw [h] <;> decide

theorem normalizePriority_idem (s : String) :
    normalizePriority (normalizePriority s) = normalizePriority s := by
  have h := normalizePriority_mem s
  simp only [List.mem_cons, List.not_mem_nil, or_false] at h
  rcases h with h | h | h <;> rw [h] <;> decide

/-- The tokens recognised by some bucket of `normalizeRiskLevel`. -/
def riskKeywords : List String :=
  ["high", "critical", "severe", "important",
   "medium", "moderate", "normal",
   "low", "minor", "trivial"]

/-- The tokens recognised by some bucket of `normalizePriority`. -/
def priorityKeywords : List String :=
  ["high", "critical", "urgent", "important",
   "medium", "normal", "moderate",
   "low", "minor", "trivial"]

theorem normalizeRiskLevel_unmapped (s : String) (h : goToLower s ∉ riskKeywords) :
    normalizeRiskLevel s = "medium" := by
  dsimp only [normalizeRiskLevel]
  have h1 : ¬(goToLower s = "high" ∨ goToLower s = "critical" ∨ goToLower s = "severe" ∨
      goToLower s = "important") := by
    rintro (e | e | e | e) <;> exact h (by rw [e]; decide)
  have h3 : ¬(goToLower s = "low" ∨ goToLower s = "minor" ∨ goToLower s = "trivial") := by
    rintro (e | e | e) <;> exact h (by rw [e]; decide)
  rw [if_neg h1, if_neg h3]
  split <;> rfl

theorem normalizePriority_unmapped (s : String) (h : goToLower s ∉ priorityKeywords) :
    normalizePriority s = "medium" := by
  dsimp only [normalizePriority]
  have h1 : ¬(goToLower s = "high" ∨ goToLower s = "critical" ∨ goToLower s = "urgent" ∨
      goToLower s = "important") := by
    rintro (e | e | e | e) <;> exact h (by rw [e]; decide)
  have h3 : ¬(goToLower s = "low" ∨ goToLower s = "minor" ∨ goToLower s = "trivial") := by
    rintro (e | e | e) <;> exact h (by rw [e]; decide)
  rw [if_neg h1, if_neg h3]
  split <;> rfl

theorem basicRiskLevel_mem (p : String) :
    basicRiskLevel p ∈ (["high", "medium", "low"] : List String) := by
  dsimp only [basicRiskLevel]
  split
  · simp
  · split <;> simp

/-! ## Claim C3 -/

/-- Claim C3: the risk-level and priority normalization functions are total
and idempotent: for every input string the result is exactly one of
`high`, `medium`, `low`; strings whose lowered form is matched by no
keyword bucket map to `medium`; and each normalizer is idempotent. -/
theorem C3_normalization_total_idempotent :
    (∀ s : String,
       normalizeRiskLevel s ∈ (["high", "medium", "low"] : List String) ∧
       normalizePriority s ∈ (["high", "medium", "low"] : List String)) ∧
    (∀ s : String, goToLower s ∉ riskKeywords → normalizeRiskLevel s = "medium") ∧
    (∀ s : String, goToLower s ∉ priorityKeywords → normalizePriority s = "medium") ∧
    (∀ s : String,
       normalizeRiskLevel (normalizeRiskLevel s) = normalizeRiskLevel s ∧
       normalizePriority (normalizePriority s) = normalizePriority s) :=
  ⟨fun s => ⟨normalizeRiskLevel_mem s, normalizePriority_mem s⟩,
   normalizeRiskLevel_unmapped,
   normalizePriority_unmapped,
   fun s => ⟨normalizeRiskLevel_idem s, normalizePriority_idem s⟩⟩

/-- Witness for C3 at the concrete unmapped token `blocker` and the mapped
token `Critical`. -/
theorem C3_normalization_witness :
    normalizeRiskLevel "blocker" = "medium" ∧
    normalizePriority "blocker" = "medium" ∧
    normalizeRiskLevel "Critical" ∈ (["high", "medium", "low"] : List String) :=
  ⟨C3_normalization_total_idempotent.2.1 "blocker" (by decide),
   C3_normalization_total_idempotent.2.2.1 "blocker" (by decide),
   (C3_normalization_total_idempotent.1 "Critical").1⟩

/-! ## Claim C1 -/

theorem buildLLMResult_risk_mem (m : List (String × Json)) :
    (buildLLMResult m).RiskLevel ∈ (["", "high", "medium", "low"] : List String) := by
  dsimp only [buildLLMResult]
  cases hE : llmStrField m "riskLevel" with
  | none => simp
  | some s => exact List.mem_cons_of_mem _ (normalizeRiskLevel_mem s)

theorem buildLLMResult_priority_mem (m : List (String × Json)) :
    (buildLLMResult m).Priority ∈ (["", "high", "medium", "low"] : List String) := by
  dsimp only [buildLLMResult]
  cases hE : llmStrField m "priority" with
  | none => simp
  | some s => exact List.mem_cons_of_mem _ (normalizePriority_mem s)

theorem parseLLMResponse_ok_shape (r : String) (res : AnalysisResult)
    (h : parseLLMResponse r = .ok res) : ∃ m, res = buildLLMResult m := by
  unfold parseLLMResponse at h
  split at h
  · exact absurd h (by simp)
  · exact absurd h (by simp)
  · split at h
    · exact absurd h (by simp)
    · exact ⟨_, (GoResult.ok.inj h).symm⟩
    · exact ⟨[], (GoResult.ok.inj h).symm⟩
    · exact absurd h (by simp)

/-- Task used by several concrete counterexamples: a metadata priority
`blocker` that no normalization bucket recognises. -/
def blockerTask : TicketAvailableTask :=
  { Summary := "review"
    Metadata := [("priority", "blocker")] }

/-- Counterexample to claim C1: when the LLM call fails, `analyzeTicketInfo`
returns a result whose RiskLevel and Priority are `unknown`, outside
`\x7bhigh, medium, low\x7d`; and the heuristic strategy copies the raw
lowered metadata priority (`blocker`) into Priority. -/
theorem C1_counterexample :
    analyzeTicketInfo (some (.err "connection refused")) blockerTask =
      .ok (llmFailureResult "LLM completion failed: connection refused") ∧
    (llmFailureResult "LLM completion failed: connection refused").RiskLevel = "unknown" ∧
    (llmFailureResult "LLM completion failed: connection refused").Priority = "unknown" ∧
    "unknown" ∉ (["high", "medium", "low"] : List String) ∧
    (performBasicAnalysis blockerTask).Priority = "blocker" ∧
    "blocker" ∉ (["high", "medium", "low"] : List String) :=
  ⟨rfl, rfl, rfl, by decide, rfl, by decide⟩

/-- Claim C1, amended: the heuristic strategy always returns a RiskLevel in
`\x7bhigh, medium, low\x7d`; when the LLM call or response parsing fails,
`analyzeTicketInfo` instead returns the fixed placeholder whose RiskLevel
and Priority are `unknown`; and an LLM-success result carries a RiskLevel
and Priority that are either normalized into the set or left empty when the
response JSON lacks a string field for them.  (The heuristic Priority is
the raw lowered metadata priority and may lie outside the set.) -/
theorem C1_analysis_result_levels :
    (∀ task, (performBasicAnalysis task).RiskLevel ∈ (["high", "medium", "low"] : List String)) ∧
    (∀ e task, analyzeTicketInfo (some (.err e)) task =
       .ok (llmFailureResult ("LLM completion failed: " ++ e))) ∧
    (∀ msg, (llmFailureResult msg).RiskLevel = "unknown" ∧
       (llmFailureResult msg).Priority = "unknown") ∧
    (∀ r res, parseLLMResponse r = .ok res →
       res.RiskLevel ∈ (["", "high", "medium", "low"] : List String) ∧
       res.Priority ∈ (["", "high", "medium", "low"] : List String)) := by
  refine ⟨fun task => basicRiskLevel_mem _, fun e task => rfl, fun msg => ⟨rfl, rfl⟩, ?_⟩
  intro r res h
  obtain ⟨m, rfl⟩ := parseLLMResponse_ok_shape r res h
  exact ⟨buildLLMResult_risk_mem m, buildLLMResult_priority_mem m⟩

/-- Witness for C1 at a concrete LLM response wrapping
`\x7b"riskLevel":"Critical"\x7d` in prose. -/
theorem C1_analysis_result_levels_witness :
    (buildLLMResult [("riskLevel", Json.jstr "Critical")]).RiskLevel ∈
      (["", "high", "medium", "low"] : List String) :=
  (C1_analysis_result_levels.2.2.2
    "Here is the result: \x7b\"riskLevel\":\"Critical\"\x7d thanks"
    (buildLLMResult [("riskLevel", Json.jstr "Critical")]) rfl).1

/-! ## Claim C9 -/

/-- The message the InformationGatheringAgent receives for the webhook
`\x7b"ticketId":"PROJ-1","event":"created"\x7d` of Scenario A. -/
def webhookScenarioMsg : List MsgPart :=
  [MsgPart.dataPart (Json.jobj [("ticketId", Json.jstr "PROJ-1"), ("event", Json.jstr "created")])]

/-- The task `extractTaskData` builds from the Scenario A webhook. -/
def webhookScenarioTask : TicketAvailableTask :=
  { TicketID := "PROJ-1"
    Summary := "No summary available"
    Metadata := [("event", "created")] }

/-- Counterexample to claim C9: the heuristic does not derive risk through
the normalization buckets.  For the unmapped metadata priority `blocker`
the heuristic risk is `low`, while `normalizeRiskLevel` maps the same
priority to `medium`. -/
theorem C9_counterexample :
    (performBasicAnalysis blockerTask).Priority = "blocker" ∧
    (performBasicAnalysis blockerTask).RiskLevel = "low" ∧
    normalizeRiskLevel (performBasicAnalysis blockerTask).Priority = "medium" ∧
    (performBasicAnalysis blockerTask).RiskLevel ≠
      normalizeRiskLevel (performBasicAnalysis blockerTask).Priority :=
  ⟨rfl, rfl, rfl, by decide⟩

/-- Claim C9, amended: the heuristic reads the priority from the task
metadata (default `medium`) and derives the risk by substring-matching the
priority against the priority buckets, with default `low` (not `medium`,
and not via `normalizeRiskLevel`); Scenario A
(webhook `\x7b"ticketId":"PROJ-1","event":"created"\x7d`, no LLM) yields
Priority `medium`, RiskLevel `medium`, KeyThemes `["task"]`. -/
theorem C9_heuristic_analysis :
    extractTaskData webhookScenarioMsg = .ok webhookScenarioTask ∧
    analyzeTicketInfo none webhookScenarioTask = .ok (performBasicAnalysis webhookScenarioTask) ∧
    (performBasicAnalysis webhookScenarioTask).Priority = "medium" ∧
    (performBasicAnalysis webhookScenarioTask).RiskLevel = "medium" ∧
    (performBasicAnalysis webhookScenarioTask).KeyThemes = ["task"] ∧
    (∀ task : TicketAvailableTask,
       goContains (basicPriority task.Metadata) "high" = false →
       goContains (basicPriority task.Metadata) "critical" = false →
       goContains (basicPriority task.Metadata) "urgent" = false →
       goContains (basicPriority task.Metadata) "important" = false →
       goContains (basicPriority task.Metadata) "medium" = false →
       goContains (basicPriority task.Metadata) "normal" = false →
       goContains (basicPriority task.Metadata) "moderate" = false →
       (performBasicAnalysis task).RiskLevel = "low") := by
  refine ⟨rfl, rfl, rfl, rfl, rfl, ?_⟩
  intro task h1 h2 h3 h4 h5 h6 h7
  show basicRiskLevel (basicPriority task.Metadata) = "low"
  simp [basicRiskLevel, h1, h2, h3, h4, h5, h6, h7]

/-- Witness for C9 at the concrete unmapped priority `blocker`. -/
theorem C9_heuristic_analysis_witness :
    (performBasicAnalysis blockerTask).RiskLevel = "low" :=
  C9_heuristic_analysis.2.2.2.2.2 blockerTask rfl rfl rfl rfl rfl rfl rfl

/-! ## Claim C4 -/

/-- An LLM response holding two separate JSON objects. -/
def twoObjectResponse : String := "\x7b\"a\":1\x7d \x7b\"b\":2\x7d"

/-- The Scenario B LLM response. -/
def scenarioBResponse : String := "Here is the result: \x7b\"riskLevel\":\"Critical\"\x7d thanks"

/-- Counterexample to claim C4: `extractJSON` does not return the first
balanced span.  For a response holding two JSON objects, the first balanced
span exists (and is valid JSON), but the extractor takes the text from the
first `\x7b` to the last `\x7d` - which is not valid JSON - and fails. -/
theorem C4_counterexample :
    specFirstBalancedSpan twoObjectResponse = some "\x7b\"a\":1\x7d" ∧
    goJsonValid "\x7b\"a\":1\x7d" = true ∧
    extractJSON twoObjectResponse = .err "invalid JSON" :=
  ⟨rfl, rfl, rfl⟩

/-- Claim C4, amended: `extractJSON` takes the substring from the first
`\x7b` to the last `\x7d` of the response (not the first balanced span) and
validates it as JSON, failing when no `\x7b` exists or the substring is not
valid JSON; any string it returns is valid JSON.  On the Scenario B
response the two coincide: the extractor isolates
`\x7b"riskLevel":"Critical"\x7d`, whose riskLevel value `Critical`
normalizes to `high`. -/
theorem C4_extract_json :
    (extractJSON scenarioBResponse = .ok "\x7b\"riskLevel\":\"Critical\"\x7d" ∧
     goJsonParse "\x7b\"riskLevel\":\"Critical\"\x7d" =
       some (.jobj [("riskLevel", .jstr "Critical")]) ∧
     normalizeRiskLevel "Critical" = "high") ∧
    (∀ text s, extractJSON text = .ok s → goJsonValid s = true) ∧
    (∀ text, goIndexOfChar text.data '\x7b' = none →
       extractJSON text = .err "no JSON found in response") ∧
    (∀ text start stop,
       goIndexOfChar text.data '\x7b' = some start →
       goLastIndexOfChar text.data '\x7d' = some stop →
       start ≤ stop + 1 →
       extractJSON text =
         (if goJsonValid (((text.data.drop start).take (stop + 1 - start)).asString)
          then .ok (((text.data.drop start).take (stop + 1 - start)).asString)
          else .err "invalid JSON")) := by
  refine ⟨⟨rfl, rfl, rfl⟩, ?_, ?_, ?_⟩
  · intro text s h
    unfold extractJSON at h
    split at h
    · exact absurd h (by simp)
    · split at h
      · exact absurd h (by simp)
      · split at h
        · exact absurd h (by simp)
        · dsimp only at h
          split at h
          · rename_i hvalid
            rw [← (GoResult.ok.inj h)]
            exact hvalid
          · exact absurd h (by simp)
  · intro text h
    unfold extractJSON
    rw [h]
  · intro text start stop h1 h2 h3
    unfold extractJSON
    rw [h1, h2]
    dsimp only
    rw [if_neg (show ¬ stop + 1 < start by omega)]

/-- Witness for C4: the string returned on the Scenario B response is valid
JSON. -/
theorem C4_extract_json_witness :
    goJsonValid "\x7b\"riskLevel\":\"Critical\"\x7d" = true :=
  C4_extract_json.2.1 scenarioBResponse "\x7b\"riskLevel\":\"Critical\"\x7d" rfl

/-! ## Claim C2 -/

theorem ExtractFromMap_ok (data : List (String × Json)) (t t3 : TicketAvailableTask)
    (h : ExtractFromMap data t = .ok t3) : t3.TicketID ≠ "" ∧ t3.Summary ≠ "" := by
  unfold ExtractFromMap at h
  split at h
  · exact absurd h (by simp)
  · split at h
    · exact absurd h (by simp)
    · split at h
      · rename_i tid sm hcond
        rw [← GoResult.ok.inj h]
        exact hcond
      · exact absurd h (by simp)

theorem ExtractTicketDataLoop_ok (parts : List MsgPart) :
    ∀ (t t3 : TicketAvailableTask), ExtractTicketDataLoop t parts = .ok t3 →
      t3.TicketID ≠ "" ∧ t3.Summary ≠ "" := by
  induction parts with
  | nil =>
    intro t t3 h
    simp only [ExtractTicketDataLoop] at h
    exact absurd h (by simp)
  | cons p rest ih =>
    intro t t3 h
    cases p with
    | dataPart d =>
      simp only [ExtractTicketDataLoop] at h
      split at h
      · split at h
        · rename_i t2 hu hcond
          rw [← GoResult.ok.inj h]
          exact hcond
        · split at h
          · split at h
            · rename_i heq
              rw [← GoResult.ok.inj h]
              exact ExtractFromMap_ok _ _ _ heq
            · exact ih _ _ h
          · exact ih _ _ h
      · split at h
        · split at h
          · rename_i heq
            rw [← GoResult.ok.inj h]
            exact ExtractFromMap_ok _ _ _ heq
          · exact ih _ _ h
        · exact ih _ _ h
    | textPart txt =>
      simp only [ExtractTicketDataLoop] at h
      split at h
      · split at h
        · split at h
          · rename_i hu hcond
            rw [← GoResult.ok.inj h]
            exact hcond
          · split at h
            · split at h
              · rename_i heq
                rw [← GoResult.ok.inj h]
                exact ExtractFromMap_ok _ _ _ heq
              · exact ih _ _ h
            · exact ih _ _ h
        · split at h
          · split at h
            · rename_i heq
              rw [← GoResult.ok.inj h]
              exact ExtractFromMap_ok _ _ _ heq
            · exact ih _ _ h
          · exact ih _ _ h
      · exact ih _ _ h

theorem fillPlaceholders_nonempty (t : TicketAvailableTask) :
    (fillPlaceholders t).TicketID ≠ "" ∧ (fillPlaceholders t).Summary ≠ "" := by
  dsimp only [fillPlaceholders]
  constructor
  · split
    · decide
    · assumption
  · split
    · decide
    · assumption

theorem extractTaskDataLoop_ok (parts : List MsgPart) :
    ∀ t3 : TicketAvailableTask, extractTaskDataLoop parts = .ok t3 →
      t3.TicketID ≠ "" ∧ t3.Summary ≠ "" := by
  induction parts with
  | nil =>
    intro t3 h
    simp only [extractTaskDataLoop] at h
    exact absurd h (by simp)
  | cons p rest ih =>
    intro t3 h
    cases p with
    | dataPart d =>
      simp only [extractTaskDataLoop] at h
      split at h
      · rw [← GoResult.ok.inj h]
        exact fillPlaceholders_nonempty _
      · split at h
        · rw [← GoResult.ok.inj h]
          exact fillPlaceholders_nonempty _
        · exact absurd h (by simp)
    | textPart txt =>
      simp only [extractTaskDataLoop] at h
      exact ih _ h

/-- The message of the C2 counterexample: one DataPart map holding no
ticket identity at all. -/
def noIdentityMsg : List MsgPart :=
  [MsgPart.dataPart (Json.jobj [("foo", Json.jstr "bar")])]

/-- The task `extractTaskData` fabricates for it. -/
def placeholderTask : TicketAvailableTask :=
  { TicketID := "UNKNOWN-ID"
    Summary := "No summary available"
    Metadata := [("foo", "bar")] }

/-- Counterexample to claim C2: the InformationGatheringAgent's
`extractTaskData` does return a best-effort task.  For a DataPart map
without any identity field it succeeds with the placeholders `UNKNOWN-ID`
and `No summary available` instead of returning an error. -/
theorem C2_counterexample :
    extractTaskData noIdentityMsg = .ok placeholderTask ∧
    placeholderTask.TicketID = "UNKNOWN-ID" ∧
    placeholderTask.Summary = "No summary available" :=
  ⟨rfl, rfl, rfl⟩

/-- Claim C2, amended: `common.ExtractTicketData` indeed returns either a
task with non-empty TicketID and Summary or an error, and never substitutes
placeholders; the InformationGatheringAgent's `extractTaskData` also never
returns an empty TicketID or Summary, but it achieves this by filling the
placeholders `UNKNOWN-ID` / `No summary available` when a DataPart map
lacks those fields, so best-effort tasks do reach its pipeline. -/
theorem C2_decode_validates :
    (∀ parts t, ExtractTicketData parts = .ok t → t.TicketID ≠ "" ∧ t.Summary ≠ "") ∧
    (∀ parts t, extractTaskData parts = .ok t → t.TicketID ≠ "" ∧ t.Summary ≠ "") := by
  constructor
  · intro parts t h
    unfold ExtractTicketData at h
    split at h
    · exact absurd h (by simp)
    · exact ExtractTicketDataLoop_ok _ _ _ h
  · intro parts t h
    unfold extractTaskData at h
    split at h
    · exact absurd h (by simp)
    · exact extractTaskDataLoop_ok _ _ h

/-- Witness for C2 at a concrete one-TextPart message. -/
theorem C2_decode_validates_witness :
    ({ TicketID := "PROJ-7", Summary := "Fix login bug" : TicketAvailableTask }).TicketID ≠ "" ∧
    ({ TicketID := "PROJ-7", Summary := "Fix login bug" : TicketAvailableTask }).Summary ≠ "" :=
  C2_decode_validates.1
    [MsgPart.textPart "\x7b\"ticketId\":\"PROJ-7\",\"summary\":\"Fix login bug\"\x7d"]
    { TicketID := "PROJ-7", Summary := "Fix login bug" } rfl

/-! ## Claim C5 -/

theorem keys_goAssocPut {α : Type} (m : List (String × α)) (k : String) (v : α) :
    (goAssocPut m k v).map Prod.fst =
      if m.any (·.1 = k) then m.map Prod.fst else m.map Prod.fst ++ [k] := by
  unfold goAssocPut
  split
  · rw [List.map_map]
    refine List.map_congr_left ?_
    intro p hp
    dsimp only [Function.comp]
    split
    · rename_i hpk
      exact hpk.symm
    · rfl
  · simp

theorem any_key_iff {α : Type} (m : List (String × α)) (k : String) :
    m.any (·.1 = k) = true ↔ k ∈ m.map Prod.fst := by
  simp only [List.any_eq_true, decide_eq_true_eq, List.mem_map]

theorem nodup_keys_goAssocPut {α : Type} (m : List (String × α)) (k : String) (v : α)
    (h : (m.map Prod.fst).Nodup) : ((goAssocPut m k v).map Prod.fst).Nodup := by
  rw [keys_goAssocPut]
  split
  · exact h
  · rename_i hany
    have hk : k ∉ m.map Prod.fst := fun hmem => hany ((any_key_iff m k).mpr hmem)
    simp [List.nodup_append, h, hk]

theorem toFinset_keys_goAssocPut {α : Type} (m : List (String × α)) (k : String) (v : α) :
    ((goAssocPut m k v).map Prod.fst).toFinset = insert k (m.map Prod.fst).toFinset := by
  rw [keys_goAssocPut]
  split
  · rename_i hany
    have hk : k ∈ m.map Prod.fst := (any_key_iff m k).mp hany
    rw [Finset.insert_eq_self.mpr (List.mem_toFinset.mpr hk)]
  · rw [List.toFinset_append, Finset.insert_eq, Finset.union_comm]
    simp

theorem changesFold_keys (items : List ChangelogItem) :
    ∀ init : List (String × String), (init.map Prod.fst).Nodup →
      (((items.foldl (fun m it => goAssocPut m it.Field it.ToString) init).map Prod.fst).Nodup ∧
       ((items.foldl (fun m it => goAssocPut m it.Field it.ToString) init).map Prod.fst).toFinset =
         (init.map Prod.fst).toFinset ∪ (items.map ChangelogItem.Field).toFinset) := by
  induction items with
  | nil =>
    intro init hinit
    simp [hinit]
  | cons it rest ih =>
    intro init hinit
    simp only [List.foldl_cons, List.map_cons, List.toFinset_cons]
    obtain ⟨hn, he⟩ := ih (goAssocPut init it.Field it.ToString)
      (nodup_keys_goAssocPut _ _ _ hinit)
    refine ⟨hn, ?_⟩
    rw [he, toFinset_keys_goAssocPut, Finset.insert_union, Finset.union_insert]

/-- The field names reported in the payload's changelog, in order, with
duplicates. -/
def changelogFieldNames (p : JiraWebhookPayload) : List String :=
  match p.Changelog with
  | some cl => cl.Items.map ChangelogItem.Field
  | none => []

/-- The number of items in the payload's changelog. -/
def changelogItemCount (p : JiraWebhookPayload) : Nat :=
  match p.Changelog with
  | some cl => cl.Items.length
  | none => 0

/-- A payload whose changelog reports two changes to the same field. -/
def dupChangelogPayload : JiraWebhookPayload :=
  { Issue := { Key := "JRA-1" }
    Changelog := some { Items :=
      [{ Field := "status", ToString := "Open" }, { Field := "status", ToString := "Done" }] }
    WebhookEvent := "jira:issue_updated" }

/-- Counterexample to claim C5: two changelog items naming the same field
collapse to one `Changes` entry, so the map size is 1 while the changelog
holds 2 items. -/
theorem C5_counterexample :
    (transformPayload dupChangelogPayload).TicketID = "JRA-1" ∧
    changelogItemCount dupChangelogPayload = 2 ∧
    (transformPayload dupChangelogPayload).Changes.length = 1 ∧
    (1 : Nat) ≠ 2 :=
  ⟨rfl, rfl, rfl, by decide⟩

/-- Claim C5, amended: for every vendor-shaped payload the normalizer's
TicketID equals the issue key, and the `Changes` map has one entry per
DISTINCT changelog field name (duplicate field names collapse, so the size
equals the changelog item count only when the field names are distinct). -/
theorem C5_normalize_extracts (p : JiraWebhookPayload) :
    (transformPayload p).TicketID = p.Issue.Key ∧
    (transformPayload p).Changes.length = (changelogFieldNames p).toFinset.card := by
  refine ⟨rfl, ?_⟩
  have hc : (transformPayload p).Changes =
      (match p.Changelog with
       | some cl =>
         if cl.Items ≠ [] then
           cl.Items.foldl (fun m it => goAssocPut m it.Field it.ToString) []
         else []
       | none => []) := rfl
  rw [hc]
  unfold changelogFieldNames
  cases p.Changelog with
  | none => simp
  | some cl =>
    dsimp only
    by_cases hne : cl.Items = []
    · simp [hne]
    · rw [if_pos hne]
      obtain ⟨hn, he⟩ := changesFold_keys cl.Items [] (by simp)
      calc (cl.Items.foldl (fun m it => goAssocPut m it.Field it.ToString) []).length
          = ((cl.Items.foldl (fun m it => goAssocPut m it.Field it.ToString) []).map
              Prod.fst).length := (List.length_map _ _).symm
        _ = ((cl.Items.foldl (fun m it => goAssocPut m it.Field it.ToString) []).map
              Prod.fst).toFinset.card := (List.toFinset_card_of_nodup hn).symm
        _ = (cl.Items.map ChangelogItem.Field).toFinset.card := by
              rw [he]
              simp

/-! ## Claim C10 -/

/-- Counterexample to claim C10: not every syntactically valid JSON byte
sequence is accepted.  `[]` and `\x7b"id":"x"\x7d` are valid JSON and
contain no issue key, yet `TransformJiraWebhook` fails on them (the
unmarshal step rejects a non-object document and a string where the `id`
integer is expected) instead of returning a `WebhookRequest` with empty
TicketID. -/
theorem C10_counterexample :
    goJsonParse "[]" = some (Json.jarr []) ∧
    TransformJiraWebhookBytes "[]" =
      .err "json: cannot unmarshal non-object into JiraWebhookPayload" ∧
    goJsonParse "\x7b\"id\":\"x\"\x7d" = some (Json.jobj [("id", Json.jstr "x")]) ∧
    TransformJiraWebhookBytes "\x7b\"id\":\"x\"\x7d" =
      .err "json: cannot unmarshal value into int field id" :=
  ⟨rfl, rfl, rfl, rfl⟩

/-- Claim C10, amended: for every payload that unmarshals successfully into
the vendor payload shape (not every syntactically valid JSON document),
`TransformJiraWebhook` returns success - even when the payload carries no
issue key at all, in which case TicketID and ProjectKey are both empty -
and the missing-ticket-ID validation (400) happens only in the HTTP
handler layer. -/
theorem C10_normalizer_no_validation :
    (∀ j p, unmarshalJiraWebhookPayload j = .ok p →
       TransformJiraWebhook j = .ok (transformPayload p)) ∧
    (∀ p : JiraWebhookPayload, p.Issue.Key = "" →
       (transformPayload p).TicketID = "" ∧ (transformPayload p).ProjectKey = "") ∧
    (∀ (req : HttpRequest) (processOk : Bool) (rid : String) (j : Json) (wr : WebhookRequest),
       req.Method = "POST" →
       goContains req.ContentType "application/json" = true →
       req.BodyReadErr = false →
       req.Body ≠ "" →
       goJsonParse req.Body = some j →
       decodeWebhookRequest j = .ok wr →
       wr.TicketID = "" →
       HandleWebhook req processOk rid = returnJSONError 400 "Missing required field: ticketId") := by
  refine ⟨?_, ?_, ?_⟩
  · intro j p h
    unfold TransformJiraWebhook
    rw [h]
    rfl
  · intro p h
    constructor
    · exact h
    · have hp : (transformPayload p).ProjectKey =
          (match goSplit p.Issue.Key '-' with
           | k :: _ => k
           | [] => "") := rfl
      rw [hp, h]
      rfl
  · intro req processOk rid j wr hm hct hre hb hp hd ht
    unfold HandleWebhook
    rw [if_neg (by simp [hm])]
    rw [if_neg (by simp [hct])]
    rw [if_neg (by simp [hre])]
    rw [if_neg hb]
    rw [hp]
    dsimp only
    rw [hd]
    dsimp only
    rw [if_pos ht]

/-- Witness for C10 at the concrete valid request
`\x7b"event":"created"\x7d` lacking `ticketId`. -/
theorem C10_normalizer_no_validation_witness :
    HandleWebhook { Body := "\x7b\"event\":\"created\"\x7d" } true "req-1" =
      returnJSONError 400 "Missing required field: ticketId" :=
  C10_normalizer_no_validation.2.2
    { Body := "\x7b\"event\":\"created\"\x7d" } true "req-1"
    (Json.jobj [("event", Json.jstr "created")]) { Event := "created" }
    rfl rfl rfl (by decide) rfl rfl rfl

/-! ## Claim C6 -/

/-- A POST request whose Content-Type merely CONTAINS `application/json`. -/
def oddContentTypeReq : HttpRequest :=
  { ContentType := "text/application/json"
    Body := "\x7b\"ticketId\":\"PROJ-1\",\"event\":\"created\"\x7d" }

/-- Counterexample to claim C6: the handler answers 415 only when the
Content-Type does not CONTAIN `application/json`.  A POST with Content-Type
`text/application/json` - which is not `application/json` - is accepted and
processed with 200 rather than rejected with 415. -/
theorem C6_counterexample :
    oddContentTypeReq.ContentType ≠ "application/json" ∧
    (HandleWebhook oddContentTypeReq true "req-1").Code = 200 ∧
    (200 : Nat) ≠ 415 :=
  ⟨by decide, rfl, by decide⟩

/-- Claim C6, amended: non-POST → 405; a POST whose Content-Type does not
contain `application/json` → 415; a POST whose body cannot be read, is
empty, is unparsable JSON, or does not decode into the webhook shape → 400;
a decoded body lacking `ticketId` or `event` → 400; and a successfully
processed request → 200 with a JSON body whose fields are exactly
`status`, `ticketId`, `message`, `requestId`. -/
theorem C6_webhook_endpoint (req : HttpRequest) (processOk : Bool) (rid : String) :
    (req.Method ≠ "POST" →
       HandleWebhook req processOk rid =
         returnJSONError 405 "Method not allowed: Only POST requests are accepted") ∧
    (req.Method = "POST" → goContains req.ContentType "application/json" = false →
       HandleWebhook req processOk rid =
         returnJSONError 415 "Content type must be application/json") ∧
    (req.Method = "POST" → goContains req.ContentType "application/json" = true →
       req.BodyReadErr = true →
       HandleWebhook req processOk rid = returnJSONError 400 "Failed to read request body") ∧
    (req.Method = "POST" → goContains req.ContentType "application/json" = true →
       req.BodyReadErr = false → req.Body = "" →
       HandleWebhook req processOk rid = returnJSONError 400 "Request body cannot be empty") ∧
    (req.Method = "POST" → goContains req.ContentType "application/json" = true →
       req.BodyReadErr = false → req.Body ≠ "" → goJsonParse req.Body = none →
       HandleWebhook req processOk rid =
         returnJSONError 400 "Failed to parse request body as JSON") ∧
    (∀ j e, req.Method = "POST" → goContains req.ContentType "application/json" = true →
       req.BodyReadErr = false → req.Body ≠ "" → goJsonParse req.Body = some j →
       decodeWebhookRequest j = .err e →
       HandleWebhook req processOk rid =
         returnJSONError 400 "Failed to parse request body as JSON") ∧
    (∀ j wr, req.Method = "POST" → goContains req.ContentType "application/json" = true →
       req.BodyReadErr = false → req.Body ≠ "" → goJsonParse req.Body = some j →
       decodeWebhookRequest j = .ok wr → wr.TicketID ≠ "" → wr.Event = "" →
       HandleWebhook req processOk rid = returnJSONError 400 "Missing required field: event") ∧
    (∀ j wr, req.Method = "POST" → goContains req.ContentType "application/json" = true →
       req.BodyReadErr = false → req.Body ≠ "" → goJsonParse req.Body = some j →
       decodeWebhookRequest j = .ok wr → wr.TicketID ≠ "" → wr.Event ≠ "" → processOk = true →
       (HandleWebhook req processOk rid).Code = 200 ∧
       (HandleWebhook req processOk rid).Fields.map Prod.fst =
         ["status", "ticketId", "message", "requestId"]) := by
  have hself : goContains "application/json" "application/json" = true := by decide
  refine ⟨?_, ?_, ?_, ?_, ?_, ?_, ?_, ?_⟩
  · intro hm
    unfold HandleWebhook
    rw [if_pos hm]
  · intro hm hct
    unfold HandleWebhook
    rw [if_neg (by simp [hm])]
    rw [if_pos ⟨(by intro he; rw [he, hself] at hct; cases hct), (by simp [hct])⟩]
  · intro hm hct hre
    unfold HandleWebhook
    rw [if_neg (by simp [hm]), if_neg (by simp [hct]), if_pos hre]
  · intro hm hct hre hb
    unfold HandleWebhook
    rw [if_neg (by simp [hm]), if_neg (by simp [hct]), if_neg (by simp [hre]), if_pos hb]
  · intro hm hct hre hb hp
    unfold HandleWebhook
    rw [if_neg (by simp [hm]), if_neg (by simp [hct]), if_neg (by simp [hre]), if_neg hb, hp]
  · intro j e hm hct hre hb hp hd
    unfold HandleWebhook
    rw [if_neg (by simp [hm]), if_neg (by simp [hct]), if_neg (by simp [hre]), if_neg hb, hp]
    dsimp only
    rw [hd]
  · intro j wr hm hct hre hb hp hd ht hev
    unfold HandleWebhook
    rw [if_neg (by simp [hm]), if_neg (by simp [hct]), if_neg (by simp [hre]), if_neg hb, hp]
    dsimp only
    rw [hd]
    dsimp only
    rw [if_neg ht, if_pos hev]
  · intro j wr hm hct hre hb hp hd ht hev hok
    unfold HandleWebhook
    rw [if_neg (by simp [hm]), if_neg (by simp [hct]), if_neg (by simp [hre]), if_neg hb, hp]
    dsimp only
    rw [hd]
    dsimp only
    rw [if_neg ht, if_neg hev, if_pos hok]
    exact ⟨rfl, rfl⟩

/-- Witness for C6: a valid request is answered with 200 and the four
response fields; a GET is answered with 405. -/
theorem C6_webhook_endpoint_witness :
    (HandleWebhook { Body := "\x7b\"ticketId\":\"PROJ-1\",\"event\":\"created\"\x7d" }
        true "req-1").Fields.map Prod.fst = ["status", "ticketId", "message", "requestId"] ∧
    HandleWebhook { Method := "GET" } true "req-1" =
      returnJSONError 405 "Method not allowed: Only POST requests are accepted" :=
  ⟨((C6_webhook_endpoint { Body := "\x7b\"ticketId\":\"PROJ-1\",\"event\":\"created\"\x7d" }
        true "req-1").2.2.2.2.2.2.2
      (Json.jobj [("ticketId", Json.jstr "PROJ-1"), ("event", Json.jstr "created")])
      { TicketID := "PROJ-1", Event := "created" }
      rfl rfl rfl (by decide) rfl rfl (by decide) (by decide) rfl).2,
   (C6_webhook_endpoint { Method := "GET" } true "req-1").1 (by decide)⟩

/-! ## Claim C8 -/

/-- Counterexample to claim C8: the emitted state names differ from the
claimed chain and stage errors do not emit `failed`.  A run whose task
extraction fails emits only `processing` and returns the error - no
`failed` update - and a fully successful run emits
`processing, analyzing_ticket, generating_summary, completed`, never
`posting_comment` (and `analyzing_ticket` rather than `analyzing`). -/
theorem C8_counterexample :
    ProcessRun none [] {} = (["processing"], true) ∧
    "failed" ∉ (ProcessRun none [] {}).1 ∧
    ProcessRun none webhookScenarioMsg {} =
      (["processing", "analyzing_ticket", "generating_summary", "completed"], false) ∧
    "posting_comment" ∉ (ProcessRun none webhookScenarioMsg {}).1 ∧
    "received" ∉ (ProcessRun none webhookScenarioMsg {}).1 :=
  ⟨rfl, by decide, rfl, by decide, by decide⟩

/-- Claim C8, amended: in every run of `Process` the emitted status
sequence is a prefix-ordered subsequence of
`processing, analyzing_ticket, generating_summary, completed`: no state is
emitted twice, the first update is always `processing`, nothing is emitted
after `completed`, and a stage error makes `Process` return the error
without emitting any further update - in particular it never emits a
`failed` state itself (failure marking is left to the task manager). -/
theorem C8_process_states (llm : Option (GoResult String)) (parts : List MsgPart)
    (env : TaskHandleEnv) :
    List.Sublist (ProcessRun llm parts env).1
      ["processing", "analyzing_ticket", "generating_summary", "completed"] ∧
    (ProcessRun llm parts env).1.Nodup ∧
    "failed" ∉ (ProcessRun llm parts env).1 ∧
    (ProcessRun llm parts env).1.head? = some "processing" ∧
    ("completed" ∈ (ProcessRun llm parts env).1 →
      (ProcessRun llm parts env).1.getLast? = some "completed") := by
  obtain ⟨u1, u2, u3, a4, u5⟩ := env
  unfold ProcessRun
  dsimp only
  repeat' split
  all_goals decide

/-- Witness for C8 at the concrete successful Scenario A run. -/
theorem C8_process_states_witness :
    (ProcessRun none webhookScenarioMsg {}).1.getLast? = some "completed" :=
  (C8_process_states none webhookScenarioMsg {}).2.2.2.2 (by decide)

/-! ## Claim C7 -/

theorem goAssocGet_eq_of_mem (fields : List (String × String)) (k v : String)
    (hnd : (fields.map Prod.fst).Nodup) (hm : (k, v) ∈ fields) :
    goAssocGet fields k = some v := by
  induction fields with
  | nil => cases hm
  | cons p0 t ih =>
    simp only [List.map_cons, List.nodup_cons] at hnd
    rcases List.mem_cons.mp hm with he | ht
    · rw [← he]
      unfold goAssocGet
      simp [List.find?_cons_of_pos]
    · have hk : p0.1 ≠ k := by
        intro hp
        exact hnd.1 (hp ▸ (List.mem_map.mpr ⟨(k, v), ht, rfl⟩))
      unfold goAssocGet at ih ⊢
      rw [List.find?_cons_of_neg _ (by simp [hk])]
      exact ih hnd.2 ht

theorem fieldNonEmpty_true_iff (fields : List (String × String)) (k : String)
    (hnd : (fields.map Prod.fst).Nodup) :
    fieldNonEmpty fields k = true ↔ ∃ v, (k, v) ∈ fields ∧ v ≠ "" := by
  constructor
  · intro h
    unfold fieldNonEmpty at h
    rcases hg : goAssocGet fields k with _ | v
    · rw [hg] at h
      cases h
    · rw [hg] at h
      refine ⟨v, ?_, by simpa using h⟩
      unfold goAssocGet at hg
      rcases hf : fields.find? (·.1 = k) with _ | p
      · rw [hf] at hg
        cases hg
      · rw [hf] at hg
        have hp1 : p.1 = k := by
          have := List.find?_some hf
          simpa using this
        have hpm : p ∈ fields := List.mem_of_find?_eq_some hf
        have hp2 : p.2 = v := by
          simpa using hg
        rw [← hp1, ← hp2]
        exact hpm
  · rintro ⟨v, hm, hv⟩
    unfold fieldNonEmpty
    rw [goAssocGet_eq_of_mem fields k v hnd hm]
    simpa using hv

theorem count_filter_nodup (l : List String) (p : String → Bool) (k : String)
    (h : l.Nodup) :
    ((l.filter p).count k) = if k ∈ l ∧ p k = true then 1 else 0 := by
  induction l with
  | nil => simp
  | cons a t ih =>
    simp only [List.nodup_cons] at h
    by_cases hak : a = k
    · subst hak
      by_cases hpa : p a = true
      · rw [List.filter_cons_of_pos hpa]
        rw [List.count_cons_self]
        rw [ih h.2]
        rw [if_neg (by simp [h.1]), if_pos (by simp [hpa])]
      · rw [List.filter_cons_of_neg (by simpa using hpa)]
        rw [ih h.2]
        rw [if_neg (by simp [h.1]), if_neg (by simp [hpa])]
    · by_cases hpa : p a = true
      · rw [List.filter_cons_of_pos hpa]
        rw [List.count_cons_of_ne (fun he => hak he.symm)]
        rw [ih h.2]
        by_cases hkt : k ∈ t ∧ p k = true
        · rw [if_pos hkt, if_pos (by exact ⟨List.mem_cons_of_mem _ hkt.1, hkt.2⟩)]
        · rw [if_neg hkt, if_neg (by
            rintro ⟨hm, hp⟩
            rcases List.mem_cons.mp hm with he | ht
            · exact hak he.symm
            · exact hkt ⟨ht, hp⟩)]
      · rw [List.filter_cons_of_neg (by simpa using hpa)]
        rw [ih h.2]
        by_cases hkt : k ∈ t ∧ p k = true
        · rw [if_pos hkt, if_pos ⟨List.mem_cons_of_mem _ hkt.1, hkt.2⟩]
        · rw [if_neg hkt, if_neg (by
            rintro ⟨hm, hp⟩
            rcases List.mem_cons.mp hm with he | ht
            · exact hak he.symm
            · exact hkt ⟨ht, hp⟩)]

theorem count_map_fst_filter (fields : List (String × String)) (q : String × String → Bool)
    (k : String) (hnd : (fields.map Prod.fst).Nodup) :
    (((fields.filter q).map Prod.fst).count k) =
      if fields.any (fun p => p.1 = k && q p) then 1 else 0 := by
  induction fields with
  | nil => simp
  | cons p0 t ih =>
    simp only [List.map_cons, List.nodup_cons] at hnd
    have hcount0 : k ∉ t.map Prod.fst → ((t.filter q).map Prod.fst).count k = 0 := by
      intro hk
      refine List.count_eq_zero.mpr (fun hmem => hk ?_)
      rcases List.mem_map.mp hmem with ⟨p, hp, he⟩
      exact List.mem_map.mpr ⟨p, List.mem_of_mem_filter hp, he⟩
    by_cases hq : q p0 = true
    · rw [List.filter_cons_of_pos hq, List.map_cons]
      by_cases hk : p0.1 = k
      · rw [hk, List.count_cons_self]
        rw [List.any_cons]
        rw [hcount0 (hk ▸ hnd.1)]
        simp [hk, hq]
      · rw [List.count_cons_of_ne (fun he => hk he.symm)]
        rw [ih hnd.2, List.any_cons]
        simp only [hq, Bool.and_true]
        rw [show (decide (p0.1 = k)) = false from by simp [hk]]
        rw [Bool.false_or]
    · rw [List.filter_cons_of_neg (by simpa using hq)]
      rw [ih hnd.2, List.any_cons]
      simp only [hq, Bool.and_false]
      rw [Bool.false_or]

theorem any_key_entry (fields : List (String × String)) (k v : String)
    (r : String × String → Bool) (hnd : (fields.map Prod.fst).Nodup)
    (hm : (k, v) ∈ fields) :
    (fields.any (fun p => p.1 = k && r p)) = r (k, v) := by
  induction fields with
  | nil => cases hm
  | cons p0 t ih =>
    simp only [List.map_cons, List.nodup_cons] at hnd
    rw [List.any_cons]
    rcases List.mem_cons.mp hm with he | ht
    · rw [← he]
      have htf : (t.any (fun p => p.1 = k && r p)) = false := by
        rw [List.any_eq_false]
        intro p hp
        simp only [Bool.and_eq_true, decide_eq_true_eq, not_and]
        intro hpk _
        have hp0 : p0.1 = k := by rw [← he]
        exact hnd.1 (by rw [hp0]; exact List.mem_map.mpr ⟨p, hp, hpk⟩)
      rw [htf]
      simp [← he]
    · have hk : p0.1 ≠ k := by
        intro hp
        exact hnd.1 (hp ▸ List.mem_map.mpr ⟨(k, v), ht, rfl⟩)
      rw [ih hnd.2 ht]
      simp [hk]

/-- The thirteen field names of the fixed category table, concatenated. -/
def allCategoryFields : List String :=
  commentCategories.flatMap (fun c => c.2)

theorem flatMap_filter (l : List (String × List String)) (p : String → Bool) :
    l.flatMap (fun c => c.2.filter p) = (l.flatMap (fun c => c.2)).filter p := by
  induction l with
  | nil => simp
  | cons a t ih => simp [List.filter_append, ih]

theorem categoryRefs_eq (fields : List (String × String)) :
    categoryRefs fields = allCategoryFields.filter (fieldNonEmpty fields) := by
  unfold categoryRefs allCategoryFields
  exact flatMap_filter _ _

/-- Claim C7: for every collected-field map with unique keys, the comment
built by `formatJiraComment` references each non-empty entry exactly once
across the suggestion block, the category sections and the trailing "Other
Analysis Details" section - no non-empty field is dropped, none is emitted
twice, and empty or absent fields are never referenced. -/
theorem C7_comment_loses_no_field (fields : List (String × String))
    (hnd : (fields.map Prod.fst).Nodup) :
    (∀ k v, (k, v) ∈ fields →
       (formatJiraCommentRefs fields).count k = if v = "" then 0 else 1) ∧
    (∀ k, k ∈ formatJiraCommentRefs fields → ∃ v, (k, v) ∈ fields ∧ v ≠ "") := by
  constructor
  · intro k v hm
    have hget : goAssocGet fields k = some v := goAssocGet_eq_of_mem fields k v hnd hm
    have hfne : fieldNonEmpty fields k = decide (v ≠ "") := by
      unfold fieldNonEmpty
      rw [hget]
    unfold formatJiraCommentRefs
    rw [List.count_append, List.count_append]
    have hB : (categoryRefs fields).count k =
        if k ∈ allCategoryFields ∧ fieldNonEmpty fields k = true then 1 else 0 := by
      rw [categoryRefs_eq]
      exact count_filter_nodup _ _ _ (by decide)
    have hC : (otherRefs fields).count k =
        if (!(processedAfterCategories fields).contains k && decide (v ≠ "")) = true
        then 1 else 0 := by
      unfold otherRefs
      rw [count_map_fst_filter fields _ k hnd]
      rw [any_key_entry fields k v _ hnd hm]
      simp [bne]
    by_cases hv : v = ""
    · have hf0 : fieldNonEmpty fields k = false := by simp [hfne, hv]
      have hA0 : (suggestionRefs fields).count k = 0 := by
        unfold suggestionRefs
        by_cases hks : k = "Suggestion"
        · rw [← hks, hf0]
          simp
        · split
          · exact List.count_eq_zero.mpr (by simp [hks])
          · simp
      rw [hA0, hB, hC]
      rw [if_neg (by simp [hf0]), if_neg (by simp [hv]), if_pos hv]
    · by_cases hks : k = "Suggestion"
      · subst hks
        have hA1 : (suggestionRefs fields).count "Suggestion" = 1 := by
          unfold suggestionRefs
          rw [hfne, if_pos (by simp [hv])]
          simp
        have hmem : "Suggestion" ∈ processedAfterCategories fields := by
          unfold processedAfterCategories
          exact List.mem_cons_self _ _
        rw [hA1, hB, hC]
        rw [if_neg (fun hand => absurd hand.1 (by decide))]
        rw [if_neg (by simp [hmem])]
        rw [if_neg hv]
      · have hA0 : (suggestionRefs fields).count k = 0 := by
          unfold suggestionRefs
          split
          · exact List.count_eq_zero.mpr (by simp [hks])
          · simp
        by_cases hkc : k ∈ allCategoryFields
        · have hmemcat : k ∈ categoryRefs fields := by
            rw [categoryRefs_eq]
            exact List.mem_filter.mpr ⟨hkc, by simp [hfne, hv]⟩
          have hmemp : k ∈ processedAfterCategories fields := by
            unfold processedAfterCategories
            exact List.mem_cons_of_mem _ hmemcat
          rw [hA0, hB, hC]
          rw [if_pos ⟨hkc, by simp [hfne, hv]⟩, if_neg (by simp [hmemp]), if_neg hv]
        · have hnm : k ∉ processedAfterCategories fields := by
            unfold processedAfterCategories
            intro hmem
            rcases List.mem_cons.mp hmem with he | hcat
            · exact hks he
            · rw [categoryRefs_eq] at hcat
              exact hkc (List.mem_of_mem_filter hcat)
          rw [hA0, hB, hC]
          rw [if_neg (fun hand => hkc hand.1)]
          rw [if_pos (by simp [hnm, hv]), if_neg hv]
  · intro k hk
    rcases List.mem_append.mp hk with hk1 | hk2
    · rcases List.mem_append.mp hk1 with hs | hc
      · unfold suggestionRefs at hs
        by_cases hfs : fieldNonEmpty fields "Suggestion" = true
        · rw [if_pos hfs] at hs
          have hks : k = "Suggestion" := by simpa using hs
          subst hks
          exact (fieldNonEmpty_true_iff fields _ hnd).mp hfs
        · rw [if_neg hfs] at hs
          cases hs
      · rw [categoryRefs_eq] at hc
        exact (fieldNonEmpty_true_iff fields k hnd).mp (List.of_mem_filter hc)
    · unfold otherRefs at hk2
      rcases List.mem_map.mp hk2 with ⟨p, hpf, hpk⟩
      have hq := List.of_mem_filter hpf
      have hpm := List.mem_of_mem_filter hpf
      simp only [Bool.and_eq_true, bne_iff_ne] at hq
      refine ⟨p.2, ?_, hq.2⟩
      rw [← hpk]
      exact hpm

/-- Witness for C7 at a concrete three-entry field map. -/
theorem C7_comment_loses_no_field_witness :
    (formatJiraCommentRefs
      [("Suggestion", "Do X"), ("TechnicalAnalysis", "Deep"), ("Custom", "Y")]).count
        "TechnicalAnalysis" = 1 :=
  (C7_comment_loses_no_field
      [("Suggestion", "Do X"), ("TechnicalAnalysis", "Deep"), ("Custom", "Y")]
      (by decide)).1 "TechnicalAnalysis" "Deep" (by decide)
